import Mathlib

/-!
# Verification of the ng-spreadsheet formula engine

Shallow embedding of the TypeScript sources of the ng-spreadsheet
repository (models in cell.model / sheet.model, FormulaService in
formula.service.ts, SpreadsheetDataService in
spreadsheet-data.service.ts), together with theorems settling the
frozen claims about the natural-language specification.

Modelling conventions:
* JS numbers are modelled as exact rationals (the JsNum type below).
  All claim-relevant computations are exact integer/rational
  arithmetic; IEEE-754 rounding, NaN and Infinity are not modelled
  (division is total with q / 0 = 0, and the isNaN test on values
  produced by getCellNumericValue is constantly false, matching the
  fact that that function never returns NaN on parseable inputs).
* JS exceptions are modelled with Except; a try/catch block is a
  match on the Except value.
* Recursive formula evaluation (which can diverge in JS on multi-hop
  reference cycles) takes an explicit fuel parameter; running out of
  fuel raises an (always caught) evaluation error, mirroring a caught
  stack-overflow RangeError.
* Regex scanning (the global cell-reference regex
  \$?[A-Z]+\$?\d+ used by replaceCellReferences and the
  reference-rewriting functions) is modelled by an explicit
  leftmost-match scanner shown below to consume the same tokens.
-/

namespace NgSpreadsheet

/-! ## Character and digit-string primitives -/

/-- Characters matched by the regex class [A-Z]. -/
def isUpperAZ (c : Char) : Bool := 'A' ≤ c && c ≤ 'Z'

/-- Characters matched by the regex class \d (i.e. [0-9]). -/
def isDigit09 (c : Char) : Bool := '0' ≤ c && c ≤ '9'

/-- Value of a base-10 digit string, as computed by parseInt on an
all-digit string. -/
def digitsVal (ds : List Char) : Nat :=
  ds.foldl (fun a c => a * 10 + (c.toNat - 48)) 0

/-- Fuelled digit-extraction loop behind natToDigits (each step
divides by 10, so fuel n+1 always suffices; definitions in this file
use explicit fuel instead of well-founded recursion so that they
evaluate by kernel reduction). -/
def natToDigitsF : Nat → Nat → List Char
  | 0, _ => []
  | f+1, n =>
    if n < 10 then [Char.ofNat (n + 48)]
    else natToDigitsF f (n / 10) ++ [Char.ofNat (n % 10 + 48)]

/-- Base-10 digit list of a natural number, no leading zeros: the JS
String() conversion of a non-negative integer. -/
def natToDigits (n : Nat) : List Char := natToDigitsF (n + 1) n

/-- JS String() conversion of an integer. -/
def intToString (i : Int) : String :=
  if i < 0 then "-" ++ String.mk (natToDigits i.natAbs)
  else String.mk (natToDigits i.toNat)

/-! ## List-based string helpers

JS string operations are modelled on the character list of the
string (the core String library versions are bypassed because several
of them do not evaluate by kernel reduction). -/

/-- Is pre a prefix of l? -/
def listIsPrefix : List Char → List Char → Bool
  | [], _ => true
  | _ :: _, [] => false
  | a :: as, b :: bs => a == b && listIsPrefix as bs

/-- JS startsWith. -/
def jsStartsWith (s pre : String) : Bool := listIsPrefix pre.toList s.toList

/-- JS endsWith. -/
def jsEndsWith (s suf : String) : Bool :=
  listIsPrefix suf.toList.reverse s.toList.reverse

/-- Whitespace skipped by trim / parseFloat / parseInt (ASCII part). -/
def isJsWhitespace (c : Char) : Bool :=
  c = ' ' ∨ c = '\t' ∨ c = '\n' ∨ c = '\r'

/-- JS trim (ASCII whitespace). -/
def trimmedList (l : List Char) : List Char :=
  ((l.dropWhile isJsWhitespace).reverse.dropWhile isJsWhitespace).reverse

/-- JS trim on strings. -/
def jsTrim (s : String) : String := String.mk (trimmedList s.toList)

/-- ASCII uppercase of one character (JS toUpperCase on the character
sets appearing here). -/
def upChar (c : Char) : Char :=
  if 97 ≤ c.toNat ∧ c.toNat ≤ 122 then Char.ofNat (c.toNat - 32) else c

/-- ASCII lowercase of one character. -/
def downChar (c : Char) : Char :=
  if 65 ≤ c.toNat ∧ c.toNat ≤ 90 then Char.ofNat (c.toNat + 32) else c

/-- JS toUpperCase. -/
def jsToUpper (s : String) : String := String.mk (s.toList.map upChar)

/-- JS toLowerCase. -/
def jsToLower (s : String) : String := String.mk (s.toList.map downChar)

/-- substring(n) / slice from n. -/
def stringDrop (s : String) (n : Nat) : String := String.mk (s.toList.drop n)

/-- slice(0, -n). -/
def stringDropRight (s : String) (n : Nat) : String :=
  String.mk (s.toList.take (s.toList.length - n))

/-- Fuelled scan behind split(sep): each step consumes at least one
character, so fuel length+1 suffices. -/
def listSplitOnF : Nat → List Char → List Char → List Char → List (List Char)
  | 0, _, _, acc => [acc.reverse]
  | f+1, sep, l, acc =>
    match l with
    | [] => [acc.reverse]
    | c :: rest =>
      if listIsPrefix sep l then
        acc.reverse :: listSplitOnF f sep (l.drop sep.length) []
      else listSplitOnF f sep rest (c :: acc)

/-- JS split(sep) for a nonempty separator. -/
def jsSplitOn (s sep : String) : List String :=
  (listSplitOnF (s.toList.length + 1) sep.toList s.toList []).map String.mk

/-- JS includes(sub) for a nonempty sub, via split. -/
def jsIncludes (s sub : String) : Bool := (jsSplitOn s sub).length ≥ 2

/-- Strict lexicographic order on character lists: the JS < on the
(here ASCII) strings compared in compareValues. -/
def listLexLt : List Char → List Char → Bool
  | [], [] => false
  | [], _ :: _ => true
  | _ :: _, [] => false
  | a :: as, b :: bs => if a < b then true else if b < a then false else listLexLt as bs

/-! ## Exact JS numbers

JS numbers are modelled by exact rationals with a canonical
(gcd-reduced, positive-denominator) representation, implemented from
scratch so that all arithmetic evaluates by kernel reduction
(Mathlib's ℚ does not).  IEEE-754 rounding, NaN and Infinity are not
modelled; division by zero yields 0.  On every computation any claim
exercises, these rationals agree with the float results. -/

/-- Fuelled Euclid: gcd of a and b (fuel a+1 always suffices since
the first argument strictly decreases). -/
def gcdFuel : Nat → Nat → Nat → Nat
  | 0, _, b => b
  | f+1, a, b => if a = 0 then b else gcdFuel f (b % a) a

/-- Greatest common divisor (kernel-computable). -/
def natGcd (a b : Nat) : Nat := gcdFuel (a + 1) a b

/-- An exact JS number: numerator and (positive, coprime) denominator.
All values are built through norm / ofInt, keeping the representation
canonical so that structural equality is value equality. -/
structure JsNum where
  num : Int
  den : Nat
deriving DecidableEq, Repr

/-- Canonical form of n/d (d = 0, the unreachable guard, maps to 0). -/
def JsNum.norm (n : Int) (d : Nat) : JsNum :=
  if d = 0 then ⟨0, 1⟩
  else
    let g := natGcd n.natAbs d
    if g = 0 then ⟨0, 1⟩ else ⟨n / (g : Int), d / g⟩

def JsNum.ofInt (n : Int) : JsNum := ⟨n, 1⟩

def JsNum.ofNat (n : Nat) : JsNum := ⟨(n : Int), 1⟩

instance (n : Nat) : OfNat JsNum n := ⟨⟨(n : Int), 1⟩⟩

instance : Add JsNum :=
  ⟨fun a b => JsNum.norm (a.num * (b.den : Int) + b.num * (a.den : Int)) (a.den * b.den)⟩

instance : Sub JsNum :=
  ⟨fun a b => JsNum.norm (a.num * (b.den : Int) - b.num * (a.den : Int)) (a.den * b.den)⟩

instance : Mul JsNum := ⟨fun a b => JsNum.norm (a.num * b.num) (a.den * b.den)⟩

instance : Neg JsNum := ⟨fun a => ⟨-a.num, a.den⟩⟩

/-- Division; b = 0 gives 0 (JS would give ±Infinity or NaN — outside
the model and outside every claim). -/
instance : Div JsNum :=
  ⟨fun a b =>
    if b.num = 0 then ⟨0, 1⟩
    else
      let n := a.num * (b.den : Int)
      let d := (a.den : Int) * b.num
      JsNum.norm (if d < 0 then -n else n) d.natAbs⟩

instance : LE JsNum := ⟨fun a b => a.num * (b.den : Int) ≤ b.num * (a.den : Int)⟩

instance : LT JsNum := ⟨fun a b => a.num * (b.den : Int) < b.num * (a.den : Int)⟩

instance (a b : JsNum) : Decidable (a ≤ b) :=
  inferInstanceAs (Decidable (a.num * (b.den : Int) ≤ b.num * (a.den : Int)))

instance (a b : JsNum) : Decidable (a < b) :=
  inferInstanceAs (Decidable (a.num * (b.den : Int) < b.num * (a.den : Int)))

instance : Min JsNum := ⟨fun a b => if a ≤ b then a else b⟩

instance : Max JsNum := ⟨fun a b => if a ≤ b then b else a⟩

instance : NatCast JsNum := ⟨JsNum.ofNat⟩

instance : IntCast JsNum := ⟨JsNum.ofInt⟩

/-- 10^k as a JsNum. -/
def JsNum.pow10 (k : Nat) : JsNum := ⟨((10 : Nat) ^ k : Nat), 1⟩

/-- Scale by 10^e for an integer e (the exponent part of a float
literal). -/
def JsNum.scaleExp (q : JsNum) (e : Int) : JsNum :=
  if 0 ≤ e then q * JsNum.pow10 e.toNat else q / JsNum.pow10 (-e).toNat

/-- Math.floor on a JS number. -/
def JsNum.floor (a : JsNum) : Int := a.num.fdiv (a.den : Int)

/-- Math.ceil on a JS number. -/
def JsNum.ceil (a : JsNum) : Int := -((-a.num).fdiv (a.den : Int))

/-- Fuelled Newton iteration behind the integer square root. -/
def natSqrtF : Nat → Nat → Nat → Nat
  | 0, _, x => x
  | f+1, n, x =>
    let y := (x + n / x) / 2
    if x ≤ y then x else natSqrtF f n y

/-- Kernel-computable integer square root (⌊√n⌋). -/
def natSqrtJs (n : Nat) : Nat := if n = 0 then 0 else natSqrtF (n + 2) n n

/-! ## Reference Resolver (cell.model.ts) -/

/-- CellAddress of cell.model.ts.  row/col are 0-based; the TS fields
are plain JS numbers, so they are modelled as integers (a1ToCellAddress
can in fact produce row = -1, see the C8 theorems). -/
structure CellAddress where
  row : Int
  col : Int
  absoluteRow : Bool := false
  absoluteCol : Bool := false
deriving DecidableEq, Repr

/-- colLetterToIndex of cell.model.ts: Excel column letters to 0-based
index ("A" → 0, "Z" → 25, "AA" → 26). -/
def colLetterToIndex (colLetter : String) : Int :=
  (colLetter.toList.foldl (fun index c => index * 26 + ((c.toNat : Int) - 64)) 0) - 1

/-- Fuelled while-loop of colIndexToLetter for a non-negative start
value: each iteration prepends chr(temp % 26 + 65) and sets
temp = floor(temp / 26) - 1, stopping when temp goes negative (fuel
temp+1 always suffices since temp strictly decreases). -/
def colLettersAuxF : Nat → Nat → List Char
  | 0, _ => []
  | f+1, temp =>
    if temp < 26 then [Char.ofNat (temp % 26 + 65)]
    else colLettersAuxF f (temp / 26 - 1) ++ [Char.ofNat (temp % 26 + 65)]

/-- The while loop of colIndexToLetter. -/
def colLettersAux (temp : Nat) : List Char := colLettersAuxF (temp + 1) temp

/-- colIndexToLetter of cell.model.ts (0 → "A", 25 → "Z", 26 → "AA");
for a negative index the while loop never runs and yields "". -/
def colIndexToLetter (colIndex : Int) : String :=
  if colIndex < 0 then "" else String.mk (colLettersAux colIndex.toNat)

/-- cellAddressToA1 of cell.model.ts. -/
def cellAddressToA1 (address : CellAddress) : String :=
  (if address.absoluteCol then "$" ++ colIndexToLetter address.col
   else colIndexToLetter address.col) ++
  (if address.absoluteRow then "$" ++ intToString (address.row + 1)
   else intToString (address.row + 1))

/-- A (\$?) group: consume a leading $ when present.  Used by the
anchored regex of a1ToCellAddress (both \$? groups; the second group
is anchored too, since [A-Z]+ is maximal and \d+$ must cover the
rest) and by the leading \$? of the global reference-scanning
regexes. -/
def splitLeadDollar (l : List Char) : Bool × List Char :=
  match l with
  | '$' :: rest => (true, rest)
  | _ => (false, l)

/-- a1ToCellAddress of cell.model.ts.  The TS function matches
^(\$?)([A-Z]+)(\$?)(\d+)$ and throws on failure; failure is modelled
as none.  Since the three character classes $, [A-Z], [0-9] are
disjoint, the anchored regex match is equivalent to this greedy
left-to-right parse. -/
def a1ToCellAddress (a1 : String) : Option CellAddress :=
  let l := a1.toList
  let p1 := splitLeadDollar l
  let letters := p1.2.takeWhile isUpperAZ
  let l2 := p1.2.dropWhile isUpperAZ
  if letters.isEmpty then none else
  let p2 := splitLeadDollar l2
  let digits := p2.2.takeWhile isDigit09
  let l4 := p2.2.dropWhile isDigit09
  if digits.isEmpty then none else
  if ¬ l4.isEmpty then none else
  some { absoluteCol := p1.1, col := colLetterToIndex (String.mk letters),
         absoluteRow := p2.1, row := (digitsVal digits : Int) - 1 }

/-- The language of the regex ^(\$?)([A-Z]+)(\$?)(\d+)$ used by
a1ToCellAddress, stated as an explicit decomposition. -/
def matchesA1 (s : String) : Prop :=
  ∃ d1 L d2 D, s.toList = d1 ++ L ++ d2 ++ D ∧
    (d1 = [] ∨ d1 = ['$']) ∧ L ≠ [] ∧ (∀ c ∈ L, isUpperAZ c) ∧
    (d2 = [] ∨ d2 = ['$']) ∧ D ≠ [] ∧ (∀ c ∈ D, isDigit09 c)

/-! ## The global cell-reference regex

replaceCellReferences (formula.service.ts) scans with
/\$?([A-Z]+)\$?(\d+)/g and updateRowReferencesInFormula /
updateColumnReferencesInFormula (spreadsheet-data.service.ts) scan
with /(\$?)([A-Z]+)(\$?)(\d+)/g — the same token language.  A JS
global replace finds the leftmost match (advancing one position when
no match starts at the current one), replaces it, and resumes after
the matched text.  Since the classes $, [A-Z], [0-9] are disjoint,
leftmost matching is the deterministic scan below: the leading \$? is
consumed when a $ is present, [A-Z]+ and \d+ are maximal runs, and
the inner \$? is consumed only when the $ is followed by a digit. -/

/-- One matched cell-reference token: the four capture groups of
(\$?)([A-Z]+)(\$?)(\d+). -/
structure RefToken where
  dollarCol : Bool
  colLetters : List Char
  dollarRow : Bool
  rowDigits : List Char
deriving DecidableEq, Repr

/-- The text a token matched (JS `match`). -/
def RefToken.render (t : RefToken) : List Char :=
  (if t.dollarCol then ['$'] else []) ++ t.colLetters ++
    (if t.dollarRow then ['$'] else []) ++ t.rowDigits

/-- The inner (\$?): a $ between the letters and the digits is part of
the match only when a digit follows it (otherwise \d+ could not
match and the regex backtracks to an empty (\$?)). -/
def splitInnerDollar (l2 : List Char) : Bool × List Char :=
  match l2 with
  | '$' :: c :: rest => if isDigit09 c then (true, c :: rest) else (false, l2)
  | _ => (false, l2)

/-- Try to match \$?[A-Z]+\$?\d+ starting at the head of l; on success
return the token and the remaining characters. -/
def matchRefAt (l : List Char) : Option (RefToken × List Char) :=
  let p := splitLeadDollar l
  let letters := p.2.takeWhile isUpperAZ
  if letters.isEmpty then none else
  let q := splitInnerDollar (p.2.dropWhile isUpperAZ)
  let digits := q.2.takeWhile isDigit09
  if digits.isEmpty then none else
  some ({ dollarCol := p.1, colLetters := letters,
          dollarRow := q.1, rowDigits := digits }, q.2.dropWhile isDigit09)

/-- Fuelled leftmost-match scan of JS String.prototype.replace with
the global reference regex and a replacement callback: replace each
token, resume after it, copy unmatched characters verbatim.  Each
step consumes at least one character, so fuel length+1 suffices. -/
def jsReplaceRefsF (repl : RefToken → String) : Nat → List Char → List Char
  | 0, l => l
  | f+1, l =>
    match matchRefAt l with
    | some (t, rest) => (repl t).toList ++ jsReplaceRefsF repl f rest
    | none =>
      match l with
      | [] => []
      | c :: cs => c :: jsReplaceRefsF repl f cs

/-- A global regex replace of the cell-reference tokens of s. -/
def jsReplaceRefs (repl : RefToken → String) (s : String) : String :=
  String.mk (jsReplaceRefsF repl (s.toList.length + 1) s.toList)

/-! ## JS number parsing and printing -/

/-- Exponent digits after e/E; an ill-formed exponent contributes
nothing (parseFloat stops before the e). -/
def jsExpPart (r : List Char) : Int :=
  let se : Int × List Char := match r with
    | '+' :: rr => (1, rr)
    | '-' :: rr => (-1, rr)
    | _ => (1, r)
  let ds := se.2.takeWhile isDigit09
  if ds.isEmpty then 0 else se.1 * (digitsVal ds : Int)

/-- JS parseFloat: skip leading whitespace, optional sign, digits with
an optional fractional part, optional exponent.  Returns none for NaN
(no digit consumed).  Parsing stops at the first invalid character.
Special float spellings (Infinity) are not modelled. -/
def parseFloatQ (s : String) : Option JsNum :=
  let l := s.toList.dropWhile isJsWhitespace
  let sgn : JsNum × List Char := match l with
    | '+' :: r => (1, r)
    | '-' :: r => (-1, r)
    | _ => (1, l)
  let intDigits := sgn.2.takeWhile isDigit09
  let l2 := sgn.2.dropWhile isDigit09
  let frac : List Char × List Char := match l2 with
    | '.' :: r => (r.takeWhile isDigit09, r.dropWhile isDigit09)
    | _ => ([], l2)
  if intDigits.isEmpty ∧ frac.1.isEmpty then none
  else
    let mantissa : JsNum :=
      JsNum.ofNat (digitsVal intDigits) +
        JsNum.ofNat (digitsVal frac.1) / JsNum.pow10 frac.1.length
    let expVal : Int := match frac.2 with
      | 'e' :: r => jsExpPart r
      | 'E' :: r => jsExpPart r
      | _ => 0
    some ((sgn.1 * mantissa).scaleExp expVal)

/-- JS parseInt with radix 10 (as used on function arguments): skip
whitespace, optional sign, maximal digit run; NaN (none) when no
digit is consumed. -/
def parseIntJs (s : String) : Option Int :=
  let l := s.toList.dropWhile isJsWhitespace
  let sgn : Int × List Char := match l with
    | '+' :: r => (1, r)
    | '-' :: r => (-1, r)
    | _ => (1, l)
  let ds := sgn.2.takeWhile isDigit09
  if ds.isEmpty then none else some (sgn.1 * (digitsVal ds : Int))

/-- JS String() conversion of a number.  Exact for integers; for a
non-integral rational the shortest terminating decimal expansion (up
to 30 fractional digits) is produced, which agrees with JS for the
decimal values arising in this development.  Values with no
terminating decimal expansion correspond to float artifacts and are
rendered with a fraction slash; no claim depends on them. -/
def ratToString (q : JsNum) : String :=
  if q.den = 1 then intToString q.num
  else
    match ((List.range 31).filter fun k => (q * JsNum.pow10 k).den = 1).head? with
    | some k =>
      let n := (q * JsNum.pow10 k).num.natAbs
      let digitsList := natToDigits (n % 10 ^ k)
      let fracDigits := List.replicate (k - digitsList.length) '0' ++ digitsList
      (if q < 0 then "-" else "") ++ String.mk (natToDigits (n / 10 ^ k)) ++
        "." ++ String.mk fracDigits
    | none => intToString q.num ++ "/" ++ intToString (q.den : Int)

/-! ## Data model (cell.model.ts / sheet.model.ts) -/

/-- The dataType enum of cell.model.ts. -/
inductive DataType where
  | string | number | boolean | date | formula | error
deriving DecidableEq, Repr

/-- A cell value as stored in Cell.value (typed any in TS).  The
values that occur are strings (including formula text starting with
'='), numbers, and booleans. -/
inductive CellValue where
  | num (q : JsNum)
  | str (s : String)
  | bool (b : Bool)
deriving DecidableEq, Repr

/-- JS String() conversion of a cell value. -/
def CellValue.toDisplay : CellValue → String
  | .num q => ratToString q
  | .str s => s
  | .bool b => if b then "true" else "false"

/-- Is this value formula text (a string starting with '=')? -/
def CellValue.isFormula : CellValue → Bool
  | .str s => jsStartsWith s "="
  | _ => false

/-- Cell of cell.model.ts, restricted to the fields the engine reads
or writes.  displayValue is optional in TS; decimalPlaces abbreviates
style?.decimalPlaces (the only style field evaluation touches). -/
structure Cell where
  row : Int
  col : Int
  value : CellValue
  displayValue : Option String := none
  dataType : Option DataType := none
  decimalPlaces : Option Int := none
deriving DecidableEq, Repr

/-- The cells grid: the TS Cell[][] indexed [row][col]. -/
def Grid := List (List Cell)

instance : DecidableEq Grid := inferInstanceAs (DecidableEq (List (List Cell)))

instance : Repr Grid := inferInstanceAs (Repr (List (List Cell)))

/-- JS cells[row]?.[col]: undefined (none) outside bounds, including
negative indices. -/
def getCell2D (cells : Grid) (row col : Int) : Option Cell :=
  if row < 0 ∨ col < 0 then none
  else match (cells : List (List Cell)).get? row.toNat with
    | none => none
    | some r => r.get? col.toNat

/-- createEmptyCell of cell.model.ts. -/
def createEmptyCell (row col : Int) : Cell :=
  { row := row, col := col, value := .str "", displayValue := some "",
    dataType := some .string }

/-! ## safeEval (formula.service.ts)

safeEval strips every character outside [0-9+\-*/().] and evaluates
the remainder as a JS expression via the Function constructor.  On
the sanitized character set JS evaluation is plain arithmetic with
precedence, parentheses, stacked unary signs and decimal literals;
the JS lexer reads adjacent -- or ++ as increment/decrement tokens,
which on these operands is always a SyntaxError/early error, so such
inputs throw.  That semantics is modelled by the recursive-descent
parser below (rational arithmetic; division by zero yields 0 where JS
would produce Infinity/NaN, and numeric literals are read as decimal
where JS has legacy octal corner cases — no claim depends on
either). -/

/-- The evaluation-error values thrown inside the formula service. -/
inductive EvalErr where
  | invalidExpression
  | circularReference
  | invalidReference
  | fuelExhausted
deriving DecidableEq, Repr

/-- The result type of evaluateFormula: string | number. -/
inductive ResultValue where
  | num (q : JsNum)
  | str (s : String)
deriving DecidableEq, Repr

/-- JS String() conversion of a string | number value. -/
def ResultValue.toDisplay : ResultValue → String
  | .num q => ratToString q
  | .str s => s

/-- Characters kept by the sanitizing replace in safeEval. -/
def isArithChar (c : Char) : Bool :=
  isDigit09 c || c == '+' || c == '-' || c == '*' || c == '/' ||
    c == '(' || c == ')' || c == '.'

/-- Does the character list contain an adjacent -- or ++ (lexed by JS
as a decrement/increment token, an error on literal operands)? -/
def containsIncDec : List Char → Bool
  | a :: b :: r =>
    (a == '-' && b == '-') || (a == '+' && b == '+') || containsIncDec (b :: r)
  | _ => false

/-- A JS decimal numeric literal: digits, optionally with a fractional
part; also the forms .5 and 5. are literals. -/
def parseNumLit (l : List Char) : Option (JsNum × List Char) :=
  let intDs := l.takeWhile isDigit09
  let l2 := l.dropWhile isDigit09
  match l2 with
  | '.' :: r =>
    let fracDs := r.takeWhile isDigit09
    if intDs.isEmpty ∧ fracDs.isEmpty then none
    else some (JsNum.ofNat (digitsVal intDs) +
        JsNum.ofNat (digitsVal fracDs) / JsNum.pow10 fracDs.length,
      r.dropWhile isDigit09)
  | _ => if intDs.isEmpty then none else some (JsNum.ofNat (digitsVal intDs), l2)

mutual

def parseFactor : Nat → List Char → Option (JsNum × List Char)
  | 0, _ => none
  | n+1, l =>
    match l with
    | '+' :: r => parseFactor n r
    | '-' :: r => (parseFactor n r).map fun v => (-v.1, v.2)
    | '(' :: r =>
      match parseExpr n r with
      | some (v, ')' :: rest) => some (v, rest)
      | _ => none
    | _ => parseNumLit l

def parseTermRest : Nat → JsNum → List Char → Option (JsNum × List Char)
  | 0, _, _ => none
  | n+1, acc, l =>
    match l with
    | '*' :: r =>
      match parseFactor n r with
      | some (v, rest) => parseTermRest n (acc * v) rest
      | none => none
    | '/' :: r =>
      match parseFactor n r with
      | some (v, rest) => parseTermRest n (acc / v) rest
      | none => none
    | _ => some (acc, l)

def parseTerm : Nat → List Char → Option (JsNum × List Char)
  | 0, _ => none
  | n+1, l =>
    match parseFactor n l with
    | some (v, rest) => parseTermRest n v rest
    | none => none

def parseExprRest : Nat → JsNum → List Char → Option (JsNum × List Char)
  | 0, _, _ => none
  | n+1, acc, l =>
    match l with
    | '+' :: r =>
      match parseTerm n r with
      | some (v, rest) => parseExprRest n (acc + v) rest
      | none => none
    | '-' :: r =>
      match parseTerm n r with
      | some (v, rest) => parseExprRest n (acc - v) rest
      | none => none
    | _ => some (acc, l)

def parseExpr : Nat → List Char → Option (JsNum × List Char)
  | 0, _ => none
  | n+1, l =>
    match parseTerm n l with
    | some (v, rest) => parseExprRest n v rest
    | none => none

end

/-- Evaluation of a sanitized JS arithmetic expression; none of the
claims depends on inputs where the model could diverge from V8 (see
the section comment). -/
def jsArithEval (l : List Char) : Except EvalErr JsNum :=
  if containsIncDec l then .error .invalidExpression
  else match parseExpr (4 * l.length + 16) l with
    | some (v, []) => .ok v
    | _ => .error .invalidExpression

/-- safeEval of formula.service.ts.  An empty sanitized string makes
the Function body return undefined, which the typeof check converts
to 0; an unparsable one makes the constructor throw, which the catch
rethrows as Error, modelled as .error. -/
def safeEval (expression : String) : Except EvalErr JsNum :=
  let sanitized := expression.toList.filter isArithChar
  if sanitized.isEmpty then .ok 0
  else jsArithEval sanitized

/-! ## Pure helpers of FormulaService -/

/-- The scan of /\(([^)]+)\)/: leftmost ( followed by one or more
non-) characters and a ); on failure at a position the regex engine
advances one character. -/
def findParenContent : List Char → Option (List Char)
  | [] => none
  | '(' :: rest =>
    let content := rest.takeWhile (fun c => c != ')')
    match rest.dropWhile (fun c => c != ')') with
    | ')' :: _ => if content.isEmpty then findParenContent rest else some content
    | _ => findParenContent rest
  | _ :: rest => findParenContent rest

/-- extractRange of formula.service.ts ("SUM(A1:A10)" → "A1:A10",
no match → ""). -/
def extractRange (expression : String) : String :=
  match findParenContent expression.toList with
  | some content => String.mk content
  | none => ""

/-- The scan of /\((.+)\)/ (greedy): leftmost (, then everything up to
the last ) of the string, requiring at least one character between. -/
def extractArgsSrc : List Char → Option (List Char)
  | [] => none
  | '(' :: rest =>
    let r := rest.reverse
    if r.any (fun c => c == ')') then
      let content := ((r.dropWhile (fun c => c != ')')).tail).reverse
      if content.isEmpty then extractArgsSrc rest else some content
    else extractArgsSrc rest
  | _ :: rest => extractArgsSrc rest

/-- The argument-splitting loop of extractMultipleArgs: split on
commas at parenthesis depth 0 outside double quotes; every comma
pushes the trimmed accumulator (empty or not), the final fragment is
pushed only when nonempty. -/
def splitArgsLoop : List Char → List Char → Int → Bool → List String
  | [], currentArg, _, _ =>
    if currentArg.isEmpty then [] else [jsTrim (String.mk currentArg)]
  | c :: rest, currentArg, parenDepth, inQuotes =>
    if c = '"' then
      splitArgsLoop rest (currentArg ++ [c]) parenDepth (!inQuotes)
    else if c = '(' ∧ ¬ inQuotes then
      splitArgsLoop rest (currentArg ++ [c]) (parenDepth + 1) inQuotes
    else if c = ')' ∧ ¬ inQuotes then
      splitArgsLoop rest (currentArg ++ [c]) (parenDepth - 1) inQuotes
    else if c = ',' ∧ parenDepth = 0 ∧ ¬ inQuotes then
      jsTrim (String.mk currentArg) :: splitArgsLoop rest [] parenDepth inQuotes
    else
      splitArgsLoop rest (currentArg ++ [c]) parenDepth inQuotes

/-- extractMultipleArgs of formula.service.ts. -/
def extractMultipleArgs (expression : String) : List String :=
  match extractArgsSrc expression.toList with
  | none => []
  | some argsStr => splitArgsLoop argsStr [] 0 false

/-- The shared range-decoding prelude of getRangeValues /
getRangeCells / getRangeAs2DArray: split on :, parse both corner
addresses (throwing, i.e. none, aborts the caller), and normalize to
min/max rows and columns. -/
def rangeBounds (range : String) : Option (Int × Int × Int × Int) :=
  match jsSplitOn range ":" with
  | s :: e :: _ =>
    match a1ToCellAddress (jsTrim s), a1ToCellAddress (jsTrim e) with
    | some startAddr, some endAddr =>
      some (min startAddr.row endAddr.row, max startAddr.row endAddr.row,
            min startAddr.col endAddr.col, max startAddr.col endAddr.col)
    | _, _ => none
  | _ => none

/-- The list lo, lo+1, ..., hi (empty when hi < lo): a JS for loop
over an integer interval. -/
def intRange (lo hi : Int) : List Int :=
  (List.range (hi + 1 - lo).toNat).map fun i => lo + (i : Int)

/-- getRangeCells of formula.service.ts: all cells present in the
normalized range, row-major. -/
def getRangeCells (range : String) (cells : Grid) : List Cell :=
  match rangeBounds range with
  | none => []
  | some (minRow, maxRow, minCol, maxCol) =>
    ((intRange minRow maxRow).map fun row =>
      (intRange minCol maxCol).filterMap fun col => getCell2D cells row col).flatten

/-- compareValues of formula.service.ts: numeric-aware comparison
falling back to case-insensitive (lowercased) string order. -/
def compareValues (a b : ResultValue) : Int :=
  let aNum := match a with | .num q => some q | .str s => parseFloatQ s
  let bNum := match b with | .num q => some q | .str s => parseFloatQ s
  match aNum, bNum with
  | some x, some y => if x < y then -1 else if y < x then 1 else 0
  | _, _ =>
    let aStr := jsToLower a.toDisplay
    let bStr := jsToLower b.toDisplay
    if listLexLt aStr.toList bStr.toList then -1
    else if listLexLt bStr.toList aStr.toList then 1 else 0

/-- parseBooleanArg of formula.service.ts. -/
def parseBooleanArg (arg : String) : Bool :=
  let upper := jsToUpper (jsTrim arg)
  if upper = "TRUE" ∨ upper = "1" then true
  else if upper = "FALSE" ∨ upper = "0" then false
  else match parseFloatQ arg with
    | some q => decide (q ≠ 0)
    | none => false

/-- vlookupExact of formula.service.ts: first row of the table whose
first column compares equal wins; colIndex is 1-based.  (Table rows
are never empty and colIndex is validated by the caller, so the getD
defaults are not reachable from evaluateVlookup.) -/
def vlookupExact (lookupValue : ResultValue) (tableData : List (List ResultValue))
    (colIndex : Int) : ResultValue :=
  match tableData with
  | [] => .str "#N/A"
  | row :: rest =>
    if compareValues (row.head?.getD (.str "")) lookupValue = 0 then
      (row.get? (colIndex - 1).toNat).getD (.str "")
    else vlookupExact lookupValue rest colIndex

/-- The scan of vlookupApproximate with its last-match accumulator. -/
def vlookupApproxGo (lookupValue : ResultValue) (colIndex : Int) :
    List (List ResultValue) → Option (List ResultValue) → ResultValue
  | [], lastMatch =>
    match lastMatch with
    | some row => (row.get? (colIndex - 1).toNat).getD (.str "")
    | none => .str "#N/A"
  | row :: rest, lastMatch =>
    let comparison := compareValues (row.head?.getD (.str "")) lookupValue
    if comparison = 0 then (row.get? (colIndex - 1).toNat).getD (.str "")
    else if comparison < 0 then vlookupApproxGo lookupValue colIndex rest (some row)
    else
      match lastMatch with
      | some r => (r.get? (colIndex - 1).toNat).getD (.str "")
      | none => .str "#N/A"

/-- vlookupApproximate of formula.service.ts: last row whose first
column is ≤ the lookup value, stopping at the first greater one;
exact match short-circuits. -/
def vlookupApproximate (lookupValue : ResultValue)
    (tableData : List (List ResultValue)) (colIndex : Int) : ResultValue :=
  vlookupApproxGo lookupValue colIndex tableData none

/-- COUNTA predicate: value !== null && !== undefined && !== ''. -/
def isCountAValue : CellValue → Bool
  | .str "" => false
  | _ => true

/-- COUNTBLANK predicate: !cell.value || cell.value === '' — note JS
falsiness also counts the number 0 and false as blank. -/
def isBlankValue : CellValue → Bool
  | .str "" => true
  | .num q => q == 0
  | .bool b => !b
  | _ => false

/-- evaluateCountA of formula.service.ts. -/
def evaluateCountA (expression : String) (cells : Grid) : JsNum :=
  (((getRangeCells (extractRange expression) cells).filter
    fun cell => isCountAValue cell.value).length : JsNum)

/-- evaluateCountBlank of formula.service.ts. -/
def evaluateCountBlank (expression : String) (cells : Grid) : JsNum :=
  (((getRangeCells (extractRange expression) cells).filter
    fun cell => isBlankValue cell.value).length : JsNum)

/-- Placeholder for values produced by getCellNumericValue that the
isNaN test in getRangeValues would reject: on the rational model that
function never produces NaN (every unparsable input is already mapped
to 0), so the test is constantly false — which is also its observed
behaviour in the TS service, where the only NaN source would be a
cell physically storing the float NaN. -/
def jsIsNaN (_ : JsNum) : Bool := false

/-- Sample square root placeholder for Math.sqrt (STDEV/CORREL only;
float-valued in JS, approximated within 1/den here; no claim
involves these functions). -/
def ratSqrt (q : JsNum) : JsNum :=
  if q ≤ 0 then 0 else JsNum.norm (natSqrtJs (q.num.toNat * q.den) : Nat) q.den

/-- Ascending JS sort((a,b) => a-b). -/
def insertSortedBy (le : JsNum → JsNum → Bool) (x : JsNum) : List JsNum → List JsNum
  | [] => [x]
  | y :: ys => if le x y then x :: y :: ys else y :: insertSortedBy le x ys

/-- Stable insertion sort: on a total numeric comparator it produces
the same list as the (stable) JS Array.prototype.sort. -/
def sortByJs (le : JsNum → JsNum → Bool) : List JsNum → List JsNum
  | [] => []
  | x :: xs => insertSortedBy le x (sortByJs le xs)

def sortAsc (values : List JsNum) : List JsNum :=
  sortByJs (fun a b => decide (a ≤ b)) values

/-- Descending JS sort((a,b) => b-a). -/
def sortDesc (values : List JsNum) : List JsNum :=
  sortByJs (fun a b => decide (b ≤ a)) values

/-- Does expr.toUpperCase() match /^[A-Z]+\(/ (a nested function
call)? -/
def isFuncCallShape (expr : String) : Bool :=
  let u := (jsToUpper expr).toList
  !(u.takeWhile isUpperAZ).isEmpty && (u.dropWhile isUpperAZ).head? == some '('

/-- The trim().replace(/"/g, '') normalization applied to both sides
of = and <> in evaluateCondition: trim, then delete every double
quote. -/
def stripQuotes (s : String) : String :=
  String.mk ((jsTrim s).toList.filter fun c => c != '"')

/-- The numeric-comparison arm of evaluateCondition:
split at the operator, parseFloat both sides (trimmed), compare; any
NaN side makes the comparison false. -/
def numericCompareAt (evaluated op : String) (cmp : JsNum → JsNum → Bool) : Bool :=
  let parts := jsSplitOn evaluated op
  match parseFloatQ (jsTrim (parts.headD "")), parseFloatQ (jsTrim ((parts.get? 1).getD "")) with
  | some x, some y => cmp x y
  | _, _ => false


/-! ## FormulaService: evaluateFormula and its recursive helpers

All functions of the service that (transitively) re-enter
evaluateFormula live in one mutual block, structurally recursive on
an explicit fuel argument: every inter-call passes the predecessor of
the fuel matched as fuel+1, so total fuel consumption grows with
recursion depth and scanned length; a large enough fuel reproduces
the TS behaviour exactly, and fuel 0 returns the per-function neutral
results noted on each base case (reachable in JS only through stack
exhaustion). -/

mutual

/-- evaluateFormula of formula.service.ts: the public entry point,
whose try/catch converts every internal throw into '#ERROR!'. -/
def evaluateFormula : Nat → String → Grid → Int → Int → ResultValue
  | 0, _, _, _, _ => .str "#ERROR!"
  | fuel+1, formula, cells, currentRow, currentCol =>
    match evalFormulaBody fuel formula cells currentRow currentCol with
    | .ok v => v
    | .error _ => .str "#ERROR!"

/-- The body of the try block of evaluateFormula: strip the leading =,
dispatch on a case-insensitive function prefix, else substitute the
cell references and evaluate arithmetically. -/
def evalFormulaBody : Nat → String → Grid → Int → Int → Except EvalErr ResultValue
  | 0, _, _, _, _ => .error .fuelExhausted
  | fuel+1, formula, cells, currentRow, currentCol =>
    let expression := stringDrop (jsTrim formula) 1
    let upperExpr := jsToUpper expression
    if jsStartsWith upperExpr "SUM(" then .ok (.num (evaluateSum fuel expression cells))
    else if jsStartsWith upperExpr "AVERAGE(" then .ok (.num (evaluateAverage fuel expression cells))
    else if jsStartsWith upperExpr "COUNT(" then .ok (.num (evaluateCount fuel expression cells))
    else if jsStartsWith upperExpr "COUNTA(" then .ok (.num (evaluateCountA expression cells))
    else if jsStartsWith upperExpr "COUNTBLANK(" then .ok (.num (evaluateCountBlank expression cells))
    else if jsStartsWith upperExpr "MIN(" then .ok (.num (evaluateMin fuel expression cells))
    else if jsStartsWith upperExpr "MAX(" then .ok (.num (evaluateMax fuel expression cells))
    else if jsStartsWith upperExpr "MEDIAN(" then .ok (.num (evaluateMedian fuel expression cells))
    else if jsStartsWith upperExpr "MODE(" then .ok (.num (evaluateMode fuel expression cells))
    else if jsStartsWith upperExpr "PRODUCT(" then .ok (.num (evaluateProduct fuel expression cells))
    else if jsStartsWith upperExpr "STDEV(" then .ok (.num (evaluateStdev fuel expression cells))
    else if jsStartsWith upperExpr "VAR(" then .ok (.num (evaluateVar fuel expression cells))
    else if jsStartsWith upperExpr "CORREL(" then .ok (.num (evaluateCorrel fuel expression cells))
    else if jsStartsWith upperExpr "PERCENTILE(" then .ok (.num (evaluatePercentile fuel expression cells))
    else if jsStartsWith upperExpr "QUARTILE(" then .ok (.num (evaluateQuartile fuel expression cells))
    else if jsStartsWith upperExpr "RANK(" then .ok (.num (evaluateRank fuel expression cells))
    else if jsStartsWith upperExpr "IF(" then .ok (evaluateIf fuel expression cells currentRow currentCol)
    else if jsStartsWith upperExpr "IFS(" then .ok (evaluateIfs fuel expression cells currentRow currentCol)
    else if jsStartsWith upperExpr "IFERROR(" then .ok (evaluateIfError fuel expression cells currentRow currentCol)
    else if jsStartsWith upperExpr "IFNA(" then .ok (evaluateIfNa fuel expression cells currentRow currentCol)
    else if jsStartsWith upperExpr "AND(" then
      .ok (.num (if evaluateAnd fuel expression cells currentRow currentCol then 1 else 0))
    else if jsStartsWith upperExpr "OR(" then
      .ok (.num (if evaluateOr fuel expression cells currentRow currentCol then 1 else 0))
    else if jsStartsWith upperExpr "NOT(" then
      .ok (.num (if evaluateNot fuel expression cells currentRow currentCol then 1 else 0))
    else if jsStartsWith upperExpr "VLOOKUP(" then
      .ok (evaluateVlookup fuel expression cells currentRow currentCol)
    else
      match safeEval (replaceCellReferences fuel expression cells currentRow currentCol) with
      | .ok v => .ok (.num v)
      | .error e => .error e

/-- replaceCellReferences of formula.service.ts: global replace of
every \$?[A-Z]+\$?\d+ token by the callback result. -/
def replaceCellReferences : Nat → String → Grid → Int → Int → String
  | 0, expression, _, _, _ => expression
  | fuel+1, expression, cells, currentRow, currentCol =>
    String.mk (replaceRefsAux fuel expression.toList cells currentRow currentCol)

/-- The leftmost-match scan loop behind the global regex replace of
replaceCellReferences (fuel 0: remaining text kept verbatim). -/
def replaceRefsAux : Nat → List Char → Grid → Int → Int → List Char
  | 0, l, _, _, _ => l
  | fuel+1, l, cells, currentRow, currentCol =>
    match matchRefAt l with
    | some (t, rest) =>
      (refReplacement fuel t cells currentRow currentCol).toList ++
        replaceRefsAux fuel rest cells currentRow currentCol
    | none =>
      match l with
      | [] => []
      | c :: cs => c :: replaceRefsAux fuel cs cells currentRow currentCol

/-- The replacement callback of replaceCellReferences, with its
internal try/catch: any throw inside (including the deliberate
Error('Circular reference') on a direct self-reference) is caught by
the callback itself and replaced by '0'. -/
def refReplacement : Nat → RefToken → Grid → Int → Int → String
  | 0, _, _, _, _ => "0"
  | fuel+1, t, cells, currentRow, currentCol =>
    let body : Except EvalErr String :=
      match a1ToCellAddress (String.mk t.render) with
      | none => .error .invalidReference
      | some address =>
        match getCell2D cells address.row address.col with
        | none => .ok "0"
        | some cell =>
          match cell.value with
          | .str s =>
            if jsStartsWith s "=" then
              if address.row = currentRow ∧ address.col = currentCol then
                .error .circularReference
              else
                .ok (evaluateFormula fuel s cells address.row address.col).toDisplay
            else .ok ("\"" ++ s ++ "\"")
          | .num q => .ok (ratToString q)
          | .bool b => .ok ("\"" ++ (if b then "true" else "false") ++ "\"")
    match body with
    | .ok s => s
    | .error _ => "0"

/-- getCellNumericValue of formula.service.ts: numbers as-is, formula
strings recursively evaluated (non-numeric results re-parsed, || 0),
other strings parsed (NaN → 0), anything else 0. -/
def getCellNumericValue : Nat → Cell → Grid → JsNum
  | 0, _, _ => 0
  | fuel+1, cell, cells =>
    match cell.value with
    | .num q => q
    | .str s =>
      if jsStartsWith s "=" then
        match evaluateFormula fuel s cells cell.row cell.col with
        | .num q => q
        | .str rs =>
          match parseFloatQ rs with
          | some q => q
          | none => 0
      else
        match parseFloatQ s with
        | some q => q
        | none => 0
    | .bool _ => 0

/-- getRangeValues of formula.service.ts: the numeric value of every
cell present in the normalized range, row-major (the isNaN filter
never rejects, see jsIsNaN). -/
def getRangeValues : Nat → String → Grid → List JsNum
  | 0, _, _ => []
  | fuel+1, range, cells =>
    match rangeBounds range with
    | none => []
    | some (minRow, maxRow, minCol, maxCol) =>
      ((intRange minRow maxRow).map fun row =>
        (intRange minCol maxCol).filterMap fun col =>
          match getCell2D cells row col with
          | none => none
          | some cell =>
            let value := getCellNumericValue fuel cell cells
            if jsIsNaN value then none else some value).flatten

/-- evaluateSum of formula.service.ts. -/
def evaluateSum : Nat → String → Grid → JsNum
  | 0, _, _ => 0
  | fuel+1, expression, cells =>
    (getRangeValues fuel (extractRange expression) cells).foldl (· + ·) 0

/-- evaluateAverage of formula.service.ts. -/
def evaluateAverage : Nat → String → Grid → JsNum
  | 0, _, _ => 0
  | fuel+1, expression, cells =>
    let values := getRangeValues fuel (extractRange expression) cells
    if values.length = 0 then 0
    else (values.foldl (· + ·) 0) / (values.length : JsNum)

/-- evaluateCount of formula.service.ts: the length of the
getRangeValues list. -/
def evaluateCount : Nat → String → Grid → JsNum
  | 0, _, _ => 0
  | fuel+1, expression, cells =>
    ((getRangeValues fuel (extractRange expression) cells).length : JsNum)

/-- evaluateMin of formula.service.ts. -/
def evaluateMin : Nat → String → Grid → JsNum
  | 0, _, _ => 0
  | fuel+1, expression, cells =>
    match getRangeValues fuel (extractRange expression) cells with
    | [] => 0
    | v :: vs => vs.foldl min v

/-- evaluateMax of formula.service.ts. -/
def evaluateMax : Nat → String → Grid → JsNum
  | 0, _, _ => 0
  | fuel+1, expression, cells =>
    match getRangeValues fuel (extractRange expression) cells with
    | [] => 0
    | v :: vs => vs.foldl max v

/-- evaluateMedian of formula.service.ts. -/
def evaluateMedian : Nat → String → Grid → JsNum
  | 0, _, _ => 0
  | fuel+1, expression, cells =>
    let values := sortAsc (getRangeValues fuel (extractRange expression) cells)
    if values.length = 0 then 0
    else
      let mid := values.length / 2
      if values.length % 2 = 0 then
        ((values.get? (mid - 1)).getD 0 + (values.get? mid).getD 0) / 2
      else (values.get? mid).getD 0

/-- evaluateMode of formula.service.ts (via evaluateModeLoop). -/
def evaluateMode : Nat → String → Grid → JsNum
  | 0, _, _ => 0
  | fuel+1, expression, cells =>
    match getRangeValues fuel (extractRange expression) cells with
    | [] => 0
    | v :: vs => evaluateModeLoop fuel (v :: vs) [] 0 v

/-- The frequency-counting forEach of evaluateMode: the mode is
updated whenever a value's count strictly exceeds the running
maximum, so ties keep the earlier value. -/
def evaluateModeLoop : Nat → List JsNum → List (JsNum × Nat) → Nat → JsNum → JsNum
  | 0, _, _, _, mode => mode
  | fuel+1, values, freq, maxFreq, mode =>
    match values with
    | [] => mode
    | v :: rest =>
      let cnt := (((freq.find? fun p => decide (p.1 = v)).map Prod.snd).getD 0) + 1
      let freq2 := (freq.filter fun p => decide (p.1 ≠ v)) ++ [(v, cnt)]
      if cnt > maxFreq then evaluateModeLoop fuel rest freq2 cnt v
      else evaluateModeLoop fuel rest freq2 maxFreq mode

/-- evaluateProduct of formula.service.ts (empty range → 0). -/
def evaluateProduct : Nat → String → Grid → JsNum
  | 0, _, _ => 0
  | fuel+1, expression, cells =>
    match getRangeValues fuel (extractRange expression) cells with
    | [] => 0
    | vs => vs.foldl (· * ·) 1

/-- evaluateStdev of formula.service.ts (sample; < 2 values → 0). -/
def evaluateStdev : Nat → String → Grid → JsNum
  | 0, _, _ => 0
  | fuel+1, expression, cells =>
    let values := getRangeValues fuel (extractRange expression) cells
    if values.length < 2 then 0
    else
      let mean := (values.foldl (· + ·) 0) / (values.length : JsNum)
      let variance := ((values.map fun v => (v - mean) * (v - mean)).foldl (· + ·) 0) /
        ((values.length : JsNum) - 1)
      ratSqrt variance

/-- evaluateVar of formula.service.ts (sample; < 2 values → 0). -/
def evaluateVar : Nat → String → Grid → JsNum
  | 0, _, _ => 0
  | fuel+1, expression, cells =>
    let values := getRangeValues fuel (extractRange expression) cells
    if values.length < 2 then 0
    else
      let mean := (values.foldl (· + ·) 0) / (values.length : JsNum)
      ((values.map fun v => (v - mean) * (v - mean)).foldl (· + ·) 0) /
        ((values.length : JsNum) - 1)

/-- evaluateCorrel of formula.service.ts. -/
def evaluateCorrel : Nat → String → Grid → JsNum
  | 0, _, _ => 0
  | fuel+1, expression, cells =>
    let args := extractMultipleArgs expression
    if args.length ≠ 2 then 0
    else
      let values1 := getRangeValues fuel ((args.get? 0).getD "") cells
      let values2 := getRangeValues fuel ((args.get? 1).getD "") cells
      if values1.length ≠ values2.length ∨ values1.length = 0 then 0
      else
        let mean1 := (values1.foldl (· + ·) 0) / (values1.length : JsNum)
        let mean2 := (values2.foldl (· + ·) 0) / (values2.length : JsNum)
        let pairs := values1.zip values2
        let numerator := (pairs.map fun p => (p.1 - mean1) * (p.2 - mean2)).foldl (· + ·) 0
        let sumSq1 := (values1.map fun v => (v - mean1) * (v - mean1)).foldl (· + ·) 0
        let sumSq2 := (values2.map fun v => (v - mean2) * (v - mean2)).foldl (· + ·) 0
        let denominator := ratSqrt (sumSq1 * sumSq2)
        if denominator = 0 then 0 else numerator / denominator

/-- evaluatePercentile of formula.service.ts (linear interpolation; a
NaN k is modelled as 0 — in JS it would propagate NaN, a float
artifact outside this model and outside every claim). -/
def evaluatePercentile : Nat → String → Grid → JsNum
  | 0, _, _ => 0
  | fuel+1, expression, cells =>
    let args := extractMultipleArgs expression
    if args.length ≠ 2 then 0
    else
      let values := sortAsc (getRangeValues fuel ((args.get? 0).getD "") cells)
      match parseFloatQ ((args.get? 1).getD "") with
      | none => 0
      | some k =>
        if values.length = 0 ∨ k < 0 ∨ k > 1 then 0
        else
          let index := k * ((values.length : JsNum) - 1)
          let lower := JsNum.floor index
          let upper := JsNum.ceil index
          let weight := index - (lower : JsNum)
          ((values.get? lower.toNat).getD 0) * (1 - weight) +
            ((values.get? upper.toNat).getD 0) * weight

/-- evaluateQuartile of formula.service.ts (a NaN q is modelled as 0,
as for evaluatePercentile). -/
def evaluateQuartile : Nat → String → Grid → JsNum
  | 0, _, _ => 0
  | fuel+1, expression, cells =>
    let args := extractMultipleArgs expression
    if args.length ≠ 2 then 0
    else
      let values := sortAsc (getRangeValues fuel ((args.get? 0).getD "") cells)
      match parseIntJs ((args.get? 1).getD "") with
      | none => 0
      | some quart =>
        if values.length = 0 ∨ quart < 0 ∨ quart > 4 then 0
        else
          let k : JsNum := ([(0 : JsNum), 1/4, 1/2, 3/4, 1].get? quart.toNat).getD 0
          let index := k * ((values.length : JsNum) - 1)
          let lower := JsNum.floor index
          let upper := JsNum.ceil index
          let weight := index - (lower : JsNum)
          ((values.get? lower.toNat).getD 0) * (1 - weight) +
            ((values.get? upper.toNat).getD 0) * weight

/-- evaluateRank of formula.service.ts: 1-based position of the first
exact occurrence in the sorted list (descending by default, ascending
for order 1 — and for any non-zero or unparsable order argument);
absent → length + 1. -/
def evaluateRank : Nat → String → Grid → JsNum
  | 0, _, _ => 0
  | fuel+1, expression, cells =>
    let args := extractMultipleArgs expression
    if args.length < 2 then 0
    else
      match parseFloatQ ((args.get? 0).getD "") with
      | none => 0
      | some number =>
        let values := getRangeValues fuel ((args.get? 1).getD "") cells
        let descending := if args.length > 2 then
            parseIntJs ((args.get? 2).getD "") = some 0
          else true
        let sorted := if descending then sortDesc values else sortAsc values
        match sorted.findIdx? fun v => decide (v = number) with
        | some i => ((i + 1 : Nat) : JsNum)
        | none => ((values.length : JsNum) + 1)

/-- evaluateIf of formula.service.ts. -/
def evaluateIf : Nat → String → Grid → Int → Int → ResultValue
  | 0, _, _, _, _ => .str "#ERROR!"
  | fuel+1, expression, cells, currentRow, currentCol =>
    let args := extractMultipleArgs expression
    if args.length < 2 then .str "#ERROR!"
    else if evaluateCondition fuel ((args.get? 0).getD "") cells currentRow currentCol then
      evaluateExpression fuel ((args.get? 1).getD "") cells currentRow currentCol
    else if args.length > 2 then
      evaluateExpression fuel ((args.get? 2).getD "") cells currentRow currentCol
    else .str ""

/-- evaluateIfs of formula.service.ts. -/
def evaluateIfs : Nat → String → Grid → Int → Int → ResultValue
  | 0, _, _, _, _ => .str "#ERROR!"
  | fuel+1, expression, cells, currentRow, currentCol =>
    let args := extractMultipleArgs expression
    if args.length < 2 ∨ args.length % 2 ≠ 0 then .str "#ERROR!"
    else evaluateIfsLoop fuel args cells currentRow currentCol

/-- The condition/value pair loop of evaluateIfs: first true condition
wins, none → '#N/A'. -/
def evaluateIfsLoop : Nat → List String → Grid → Int → Int → ResultValue
  | 0, _, _, _, _ => .str "#N/A"
  | fuel+1, args, cells, currentRow, currentCol =>
    match args with
    | c :: v :: rest =>
      if evaluateCondition fuel c cells currentRow currentCol then
        evaluateExpression fuel v cells currentRow currentCol
      else evaluateIfsLoop fuel rest cells currentRow currentCol
    | _ => .str "#N/A"

/-- evaluateIfError of formula.service.ts: the fallback triggers when
the primary display text starts with '#' (the catch branch is dead in
the model because evaluateExpression is total, as in TS). -/
def evaluateIfError : Nat → String → Grid → Int → Int → ResultValue
  | 0, _, _, _, _ => .str "#ERROR!"
  | fuel+1, expression, cells, currentRow, currentCol =>
    let args := extractMultipleArgs expression
    if args.length < 2 then .str "#ERROR!"
    else
      let result := evaluateExpression fuel ((args.get? 0).getD "") cells currentRow currentCol
      if jsStartsWith result.toDisplay "#" then
        evaluateExpression fuel ((args.get? 1).getD "") cells currentRow currentCol
      else result

/-- evaluateIfNa of formula.service.ts: fallback only on the exact
string '#N/A'. -/
def evaluateIfNa : Nat → String → Grid → Int → Int → ResultValue
  | 0, _, _, _, _ => .str "#ERROR!"
  | fuel+1, expression, cells, currentRow, currentCol =>
    let args := extractMultipleArgs expression
    if args.length < 2 then .str "#ERROR!"
    else
      let result := evaluateExpression fuel ((args.get? 0).getD "") cells currentRow currentCol
      if result = .str "#N/A" then
        evaluateExpression fuel ((args.get? 1).getD "") cells currentRow currentCol
      else result

/-- evaluateAnd of formula.service.ts. -/
def evaluateAnd : Nat → String → Grid → Int → Int → Bool
  | 0, _, _, _, _ => false
  | fuel+1, expression, cells, currentRow, currentCol =>
    let args := extractMultipleArgs expression
    if args.length = 0 then true
    else args.all fun arg => evaluateCondition fuel arg cells currentRow currentCol

/-- evaluateOr of formula.service.ts. -/
def evaluateOr : Nat → String → Grid → Int → Int → Bool
  | 0, _, _, _, _ => false
  | fuel+1, expression, cells, currentRow, currentCol =>
    let args := extractMultipleArgs expression
    if args.length = 0 then false
    else args.any fun arg => evaluateCondition fuel arg cells currentRow currentCol

/-- evaluateNot of formula.service.ts. -/
def evaluateNot : Nat → String → Grid → Int → Int → Bool
  | 0, _, _, _, _ => false
  | fuel+1, expression, cells, currentRow, currentCol =>
    let args := extractMultipleArgs expression
    if args.length ≠ 1 then false
    else ! evaluateCondition fuel ((args.get? 0).getD "") cells currentRow currentCol

/-- evaluateCondition of formula.service.ts: replace the cell
references, then try the comparison operators in source order
>= <= <> > < = (first contained operator wins, split at its first
occurrence); numeric operators parse both sides with parseFloat (NaN
compares false), while <> and = compare the trimmed, quote-stripped
sides as exact strings.  Without an operator, truthiness of
parseFloat.  (The catch branch is dead: nothing inside throws.) -/
def evaluateCondition : Nat → String → Grid → Int → Int → Bool
  | 0, _, _, _, _ => false
  | fuel+1, condition, cells, currentRow, currentCol =>
    let evaluated := replaceCellReferences fuel condition cells currentRow currentCol
    if jsIncludes evaluated ">=" then
      numericCompareAt evaluated ">=" (fun x y => decide (x ≥ y))
    else if jsIncludes evaluated "<=" then
      numericCompareAt evaluated "<=" (fun x y => decide (x ≤ y))
    else if jsIncludes evaluated "<>" then
      stripQuotes ((jsSplitOn evaluated "<>").headD "") ≠
        stripQuotes (((jsSplitOn evaluated "<>").get? 1).getD "")
    else if jsIncludes evaluated ">" then
      numericCompareAt evaluated ">" (fun x y => decide (x > y))
    else if jsIncludes evaluated "<" then
      numericCompareAt evaluated "<" (fun x y => decide (x < y))
    else if jsIncludes evaluated "=" then
      stripQuotes ((jsSplitOn evaluated "=").headD "") =
        stripQuotes (((jsSplitOn evaluated "=").get? 1).getD "")
    else
      match parseFloatQ evaluated with
      | some q => decide (q ≠ 0)
      | none => false

/-- evaluateExpression of formula.service.ts (IF branch values etc.):
quoted string literal → its contents; leading NAME( → recursive
formula evaluation; otherwise reference substitution, returned as a
number when parseFloat succeeds and as the substituted text
otherwise. -/
def evaluateExpression : Nat → String → Grid → Int → Int → ResultValue
  | 0, _, _, _, _ => .str "#ERROR!"
  | fuel+1, expr, cells, currentRow, currentCol =>
    if jsStartsWith expr "\"" ∧ jsEndsWith expr "\"" then
      .str (stringDropRight (stringDrop expr 1) 1)
    else if isFuncCallShape expr then
      evaluateFormula fuel ("=" ++ expr) cells currentRow currentCol
    else
      let evaluated := replaceCellReferences fuel expr cells currentRow currentCol
      match parseFloatQ evaluated with
      | some q => .num q
      | none => .str evaluated

/-- evaluateVlookup of formula.service.ts. -/
def evaluateVlookup : Nat → String → Grid → Int → Int → ResultValue
  | 0, _, _, _, _ => .str "#ERROR!"
  | fuel+1, expression, cells, currentRow, currentCol =>
    let args := extractMultipleArgs expression
    if args.length < 3 then .str "#ERROR!"
    else
      let lookupValue := evaluateExpression fuel ((args.get? 0).getD "") cells currentRow currentCol
      let tableRange := jsTrim ((args.get? 1).getD "")
      match parseIntJs ((args.get? 2).getD "") with
      | none => .str "#ERROR!"
      | some colIndex =>
        if colIndex < 1 then .str "#ERROR!"
        else
          let rangeLookup := if args.length > 3 then parseBooleanArg ((args.get? 3).getD "")
            else true
          let tableData := getRangeAs2DArray fuel tableRange cells
          if tableData.length = 0 ∨ (((tableData.head?.getD []).length : Int) < colIndex) then
            .str "#N/A"
          else if rangeLookup then vlookupApproximate lookupValue tableData colIndex
          else vlookupExact lookupValue tableData colIndex

/-- getRangeAs2DArray of formula.service.ts. -/
def getRangeAs2DArray : Nat → String → Grid → List (List ResultValue)
  | 0, _, _ => []
  | fuel+1, range, cells =>
    match rangeBounds range with
    | none => []
    | some (minRow, maxRow, minCol, maxCol) =>
      (intRange minRow maxRow).map fun row =>
        (intRange minCol maxCol).map fun col =>
          getCellValue fuel (getCell2D cells row col) cells

/-- getCellValue of formula.service.ts: '' for absent cells, formulas
evaluated, other values as-is (a stored boolean flows through the TS
string|number type unchanged; it is rendered here as its String()
form, which is how every consumer — compareValues and display —
observes it). -/
def getCellValue : Nat → Option Cell → Grid → ResultValue
  | 0, _, _ => .str ""
  | fuel+1, cellOpt, cells =>
    match cellOpt with
    | none => .str ""
    | some cell =>
      match cell.value with
      | .str s =>
        if jsStartsWith s "=" then evaluateFormula fuel s cells cell.row cell.col
        else .str s
      | .num q => .num q
      | .bool b => .str (if b then "true" else "false")

end

/-- JS Array.prototype.map((x, i) => ...) starting at index i0:
an explicitly indexed map, used where the TS service maps with the
element index. -/
def mapWithIndex {α β : Type} (f : Nat → α → β) : List α → Nat → List β
  | [], _ => []
  | x :: xs, i => f i x :: mapWithIndex f xs (i + 1)

/-! ## Sheet model (sheet.model.ts) and SpreadsheetDataService state -/

/-- Sheet of sheet.model.ts, restricted to the fields the data
service reads or writes (UI-only fields are irrelevant to the
claims). -/
structure Sheet where
  id : String
  name : String
  cells : Grid
  rowCount : Int
  colCount : Int
  columnWidths : Option (List JsNum) := none
  rowHeights : Option (List JsNum) := none
  defaultColumnWidth : Option JsNum := none
  defaultRowHeight : Option JsNum := none
deriving DecidableEq, Repr

/-- HistoryEntry of spreadsheet-data.service.ts (the type field holds
one of the literal strings of the TS union; Date.now() timestamps are
outside the model and fixed to 0). -/
structure HistoryEntry where
  type : String
  sheetId : String
  row : Option Int := none
  col : Option Int := none
  oldValue : Option CellValue := none
  newValue : Option CellValue := none
  fromIndex : Option Int := none
  toIndex : Option Int := none
  timestamp : Nat := 0
deriving DecidableEq, Repr

/-- SpreadsheetData of sheet.model.ts (metadata dates omitted: wall
clock is outside the model). -/
structure SpreadsheetData where
  sheets : List Sheet
  activeSheetIndex : Int
deriving DecidableEq, Repr

/-- The mutable state of SpreadsheetDataService: the data subject and
the undo/redo stacks. -/
structure ServiceState where
  data : SpreadsheetData
  undoStack : List HistoryEntry := []
  redoStack : List HistoryEntry := []
deriving DecidableEq, Repr

/-- JS array indexing with a possibly negative index. -/
def listGetInt {α : Type} (l : List α) (i : Int) : Option α :=
  if i < 0 then none else l.get? i.toNat

/-- getActiveSheet of spreadsheet-data.service.ts. -/
def getActiveSheet (st : ServiceState) : Option Sheet :=
  listGetInt st.data.sheets st.data.activeSheetIndex

/-- updateSheet of spreadsheet-data.service.ts: replace the sheet
with the same id (not found → no change). -/
def updateSheet (st : ServiceState) (updatedSheet : Sheet) : ServiceState :=
  match st.data.sheets.findIdx? (fun s => s.id == updatedSheet.id) with
  | none => st
  | some sheetIndex =>
    { st with data := { st.data with sheets := st.data.sheets.set sheetIndex updatedSheet } }

/-- addToHistory of spreadsheet-data.service.ts: push, trim to
MAX_HISTORY = 100, clear the redo stack. -/
def addToHistory (st : ServiceState) (entry : HistoryEntry) : ServiceState :=
  let undoStack := st.undoStack ++ [entry]
  let undoStack := if undoStack.length > 100 then undoStack.tail else undoStack
  { st with undoStack := undoStack, redoStack := [] }

/-- The normalized start index of Array.prototype.splice. -/
def spliceIndex (atIndex : Int) (len : Nat) : Nat :=
  if atIndex < 0 then ((len : Int) + atIndex).toNat else min atIndex.toNat len

/-- splice(atIndex, 0, x): insert one element. -/
def jsSpliceInsert {α : Type} (l : List α) (atIndex : Int) (x : α) : List α :=
  let i := spliceIndex atIndex l.length
  l.take i ++ [x] ++ l.drop i

/-- splice(atIndex, 1): remove one element (none when past the
end). -/
def jsSpliceRemove {α : Type} (l : List α) (atIndex : Int) : List α :=
  let i := spliceIndex atIndex l.length
  l.take i ++ l.drop (i + 1)

/-- JS (expr || default) on an optional numeric field: 0 and missing
are both falsy. -/
def jsOrDefault (v : Option JsNum) (d : JsNum) : JsNum :=
  match v with
  | some x => if x = 0 then d else x
  | none => d

/-! ## Recalculation Engine (recalculateFormulasInSheet) -/

/-- Number.prototype.toFixed(dp) for 0 ≤ dp: fixed-point rendering
with dp fractional digits, rounding half away from zero (float tie
artifacts are outside the model; claims do not use decimal
formatting). -/
def toFixed (q : JsNum) (dp : Nat) : String :=
  let isNeg := q.num < 0
  let scaledNum : Int := q.num.natAbs * ((10 : Nat) ^ dp : Nat)
  let rounded : Nat := ((2 * scaledNum + (q.den : Int)).fdiv (2 * (q.den : Int))).toNat
  let signStr := if isNeg ∧ rounded ≠ 0 then "-" else ""
  if dp = 0 then signStr ++ String.mk (natToDigits rounded)
  else
    let ds := natToDigits (rounded % 10 ^ dp)
    signStr ++ String.mk (natToDigits (rounded / 10 ^ dp)) ++ "." ++
      String.mk (List.replicate (dp - ds.length) '0' ++ ds)

/-- formatNumberValue of spreadsheet-data.service.ts: numbers with a
non-negative decimalPlaces style go through toFixed, all other values
through String(). -/
def formatNumberValue (value : ResultValue) (decimalPlaces : Option Int) : String :=
  match value with
  | .str s => s
  | .num q =>
    match decimalPlaces with
    | some dp => if 0 ≤ dp then toFixed q dp.toNat else ratToString q
    | none => ratToString q

/-- The per-cell step of one recalculation pass: formula cells are
re-evaluated against the pass-start cells and their display string
recomputed (and dataType set to formula); the returned flag says
whether the display string changed.  The TS catch branch (displayValue
'#ERROR!', dataType error) is dead code because evaluateFormula never
throws, so it has no counterpart here. -/
def recalcCellStep (fuel : Nat) (workingCells : Grid) (rowIndex colIndex : Int)
    (cell : Cell) : Cell × Bool :=
  match cell.value with
  | .str s =>
    if jsStartsWith s "=" then
      let result := evaluateFormula fuel s workingCells rowIndex colIndex
      let newDisplayValue := formatNumberValue result cell.decimalPlaces
      ({ cell with displayValue := some newDisplayValue, dataType := some .formula },
        decide (cell.displayValue ≠ some newDisplayValue))
    else (cell, false)
  | _ => (cell, false)

/-- One full pass of recalculateFormulasInSheet: every cell in
row-major order, all evaluations reading the pass-start grid; the
flag is the hasChanges accumulator. -/
def recalcPass (fuel : Nat) (workingCells : Grid) : Grid × Bool :=
  let stepped := mapWithIndex (fun rowIndex row =>
    mapWithIndex (fun colIndex cell =>
      recalcCellStep fuel workingCells (rowIndex : Int) (colIndex : Int) cell) row 0)
    workingCells 0
  (stepped.map fun row => row.map Prod.fst,
   stepped.any fun row => row.any Prod.snd)

/-- The for-loop of recalculateFormulasInSheet: up to passBudget
passes, stopping after the first pass with no display change. -/
def recalcLoop (fuel : Nat) : Nat → Grid → Grid
  | 0, workingCells => workingCells
  | passBudget+1, workingCells =>
    let p := recalcPass fuel workingCells
    if p.2 then recalcLoop fuel passBudget p.1 else p.1

/-- Number of passes the loop executes (for the pass-cap theorem). -/
def recalcPassCount (fuel : Nat) : Nat → Grid → Nat
  | 0, _ => 0
  | passBudget+1, workingCells =>
    let p := recalcPass fuel workingCells
    if p.2 then recalcPassCount fuel passBudget p.1 + 1 else 1

/-- recalculateFormulasInSheet of spreadsheet-data.service.ts: the cap
is the literal 10 of the TS for loop. -/
def recalculateFormulasInSheet (fuel : Nat) (sheet : Sheet) : Sheet :=
  { sheet with cells := recalcLoop fuel 10 sheet.cells }

/-! ## Structural edits (insert/delete row and column) -/

/-- The body of insertRow (the active-sheet update): build an empty
row, splice it in at atIndex, renumber the row field of every cell in
the rows after it, splice in the default row height, bump rowCount.
No formula text is touched. -/
def insertRowSheet (sheet : Sheet) (atIndex : Int) : Sheet :=
  let newRow := (intRange 0 (sheet.colCount - 1)).map fun col => createEmptyCell atIndex col
  let inserted := jsSpliceInsert sheet.cells atIndex newRow
  let updatedCells := mapWithIndex (fun rowIdx row =>
    if atIndex + 1 ≤ (rowIdx : Int) then
      row.map fun cell => { cell with row := (rowIdx : Int) }
    else row) inserted 0
  let updatedHeights :=
    jsSpliceInsert ((sheet.rowHeights).getD []) atIndex (jsOrDefault sheet.defaultRowHeight 25)
  { sheet with cells := updatedCells
               rowCount := sheet.rowCount + 1
               rowHeights := some updatedHeights }

/-- insertRow of spreadsheet-data.service.ts. -/
def insertRow (st : ServiceState) (atIndex : Int) : ServiceState :=
  match getActiveSheet st with
  | none => st
  | some sheet => updateSheet st (insertRowSheet sheet atIndex)

/-- The body of insertColumn: splice an empty cell into every row at
atIndex, renumber the col field of the cells after it, splice in the
default column width, bump colCount.  No formula text is touched. -/
def insertColumnSheet (sheet : Sheet) (atIndex : Int) : Sheet :=
  let updatedCells := mapWithIndex (fun rowIndex row =>
    let newRow := jsSpliceInsert row atIndex (createEmptyCell (rowIndex : Int) atIndex)
    mapWithIndex (fun colIdx cell =>
      if atIndex + 1 ≤ (colIdx : Int) then { cell with col := (colIdx : Int) } else cell)
      newRow 0) sheet.cells 0
  let updatedWidths :=
    jsSpliceInsert ((sheet.columnWidths).getD []) atIndex (jsOrDefault sheet.defaultColumnWidth 100)
  { sheet with cells := updatedCells
               colCount := sheet.colCount + 1
               columnWidths := some updatedWidths }

/-- insertColumn of spreadsheet-data.service.ts. -/
def insertColumn (st : ServiceState) (atIndex : Int) : ServiceState :=
  match getActiveSheet st with
  | none => st
  | some sheet => updateSheet st (insertColumnSheet sheet atIndex)

/-- The body of deleteRow: remove the row, renumber the row field of
every row from atIndex on, remove its height, decrement rowCount.  No
formula text is touched. -/
def deleteRowSheet (sheet : Sheet) (atIndex : Int) : Sheet :=
  let removed := jsSpliceRemove sheet.cells atIndex
  let updatedCells := mapWithIndex (fun rowIdx row =>
    if atIndex ≤ (rowIdx : Int) then
      row.map fun cell => { cell with row := (rowIdx : Int) }
    else row) removed 0
  let updatedHeights := jsSpliceRemove ((sheet.rowHeights).getD []) atIndex
  { sheet with cells := updatedCells
               rowCount := sheet.rowCount - 1
               rowHeights := some updatedHeights }

/-- deleteRow of spreadsheet-data.service.ts (no-op when only one row
remains). -/
def deleteRow (st : ServiceState) (atIndex : Int) : ServiceState :=
  match getActiveSheet st with
  | none => st
  | some sheet =>
    if sheet.rowCount ≤ 1 then st
    else updateSheet st (deleteRowSheet sheet atIndex)

/-- The body of deleteColumn. -/
def deleteColumnSheet (sheet : Sheet) (atIndex : Int) : Sheet :=
  let updatedCells := sheet.cells.map fun row =>
    let newRow := jsSpliceRemove row atIndex
    mapWithIndex (fun colIdx cell =>
      if atIndex ≤ (colIdx : Int) then { cell with col := (colIdx : Int) } else cell)
      newRow 0
  let updatedWidths := jsSpliceRemove ((sheet.columnWidths).getD []) atIndex
  { sheet with cells := updatedCells
               colCount := sheet.colCount - 1
               columnWidths := some updatedWidths }

/-- deleteColumn of spreadsheet-data.service.ts (no-op when only one
column remains). -/
def deleteColumn (st : ServiceState) (atIndex : Int) : ServiceState :=
  match getActiveSheet st with
  | none => st
  | some sheet =>
    if sheet.colCount ≤ 1 then st
    else updateSheet st (deleteColumnSheet sheet atIndex)

/-! ## Reference Rewriter (reorder operations) -/

/-- columnLetterToIndex of spreadsheet-data.service.ts (the service's
own copy of the letters-to-index conversion). -/
def columnLetterToIndex (letter : String) : Int :=
  (letter.toList.foldl (fun index c => index * 26 + ((c.toNat : Int) - 64)) 0) - 1

/-- Fuelled while loop of indexToColumnLetter on num = index+1 > 0
(num strictly decreases, so fuel num+1 suffices). -/
def indexToColumnLetterF : Nat → Nat → List Char
  | 0, _ => []
  | f+1, num =>
    if num = 0 then []
    else indexToColumnLetterF f ((num - 1) / 26) ++ [Char.ofNat (65 + (num - 1) % 26)]

/-- indexToColumnLetter of spreadsheet-data.service.ts (0 → A,
25 → Z, 26 → AA; non-positive num → ""). -/
def indexToColumnLetter (index : Int) : String :=
  if index + 1 ≤ 0 then ""
  else String.mk (indexToColumnLetterF ((index + 1).toNat + 1) (index + 1).toNat)

/-- updateRowReferencesInFormula of spreadsheet-data.service.ts:
rewrite the row index of every reference token under the reorder
from fromIndex to toIndex; $ markers and the column letters pass
through unchanged, the row number is re-rendered from the mapped
index. -/
def updateRowReferencesInFormula (formula : String) (fromIndex toIndex : Int) : String :=
  jsReplaceRefs (fun t =>
    let rowNum : Int := (digitsVal t.rowDigits : Int) - 1
    let newRowNum : Int :=
      if rowNum = fromIndex then toIndex
      else if fromIndex < toIndex ∧ rowNum > fromIndex ∧ rowNum ≤ toIndex then rowNum - 1
      else if toIndex < fromIndex ∧ rowNum ≥ toIndex ∧ rowNum < fromIndex then rowNum + 1
      else rowNum
    (if t.dollarCol then "$" else "") ++ String.mk t.colLetters ++
      (if t.dollarRow then "$" else "") ++ intToString (newRowNum + 1)) formula

/-- updateColumnReferencesInFormula of spreadsheet-data.service.ts:
the column analogue; $ markers and the row digits pass through
unchanged, the column letters are re-rendered from the mapped
index. -/
def updateColumnReferencesInFormula (formula : String) (fromIndex toIndex : Int) : String :=
  jsReplaceRefs (fun t =>
    let colIndex := columnLetterToIndex (String.mk t.colLetters)
    let newColIndex : Int :=
      if colIndex = fromIndex then toIndex
      else if fromIndex < toIndex ∧ colIndex > fromIndex ∧ colIndex ≤ toIndex then colIndex - 1
      else if toIndex < fromIndex ∧ colIndex ≥ toIndex ∧ colIndex < fromIndex then colIndex + 1
      else colIndex
    (if t.dollarCol then "$" else "") ++ indexToColumnLetter newColIndex ++
      (if t.dollarRow then "$" else "") ++ String.mk t.rowDigits) formula

/-- updateFormulasAfterRowReorder of spreadsheet-data.service.ts:
rewrite every formula cell within the rowCount × colCount window;
when anything changed, store the updated sheet.  (The TS code then
calls recalculateFormulasInSheet but discards its pure result, so no
recalculation outcome is stored.) -/
def updateFormulasAfterRowReorder (st : ServiceState) (fromIndex toIndex : Int) :
    ServiceState :=
  match getActiveSheet st with
  | none => st
  | some sheet =>
    let updatedCells := mapWithIndex (fun rowIdx row =>
      mapWithIndex (fun colIdx cell =>
        if (rowIdx : Int) < sheet.rowCount ∧ (colIdx : Int) < sheet.colCount then
          match cell.value with
          | .str v =>
            if jsStartsWith v "=" then
              { cell with value := .str (updateRowReferencesInFormula v fromIndex toIndex) }
            else cell
          | _ => cell
        else cell) row 0) sheet.cells 0
    if updatedCells ≠ sheet.cells then updateSheet st { sheet with cells := updatedCells }
    else st

/-- updateFormulasAfterColumnReorder of spreadsheet-data.service.ts. -/
def updateFormulasAfterColumnReorder (st : ServiceState) (fromIndex toIndex : Int) :
    ServiceState :=
  match getActiveSheet st with
  | none => st
  | some sheet =>
    let updatedCells := mapWithIndex (fun rowIdx row =>
      mapWithIndex (fun colIdx cell =>
        if (rowIdx : Int) < sheet.rowCount ∧ (colIdx : Int) < sheet.colCount then
          match cell.value with
          | .str v =>
            if jsStartsWith v "=" then
              { cell with value := .str (updateColumnReferencesInFormula v fromIndex toIndex) }
            else cell
          | _ => cell
        else cell) row 0) sheet.cells 0
    if updatedCells ≠ sheet.cells then updateSheet st { sheet with cells := updatedCells }
    else st

/-- reorderRow of spreadsheet-data.service.ts: guarded no-op for
out-of-range or equal indices, else move the row (and its height),
renumber every cell's row field, rewrite formulas, and push a
row-reorder history entry. -/
def reorderRow (st : ServiceState) (fromIndex toIndex : Int) : ServiceState :=
  match getActiveSheet st with
  | none => st
  | some sheet =>
    if fromIndex < 0 ∨ fromIndex ≥ sheet.rowCount ∨
        toIndex < 0 ∨ toIndex ≥ sheet.rowCount ∨ fromIndex = toIndex then st
    else
      let movedRow := (listGetInt sheet.cells fromIndex).getD []
      let newCells0 := jsSpliceInsert (jsSpliceRemove sheet.cells fromIndex) toIndex movedRow
      let newCells := mapWithIndex (fun rowIdx row =>
        row.map fun cell => { cell with row := (rowIdx : Int) }) newCells0 0
      let newRowHeights := match sheet.rowHeights with
        | some hs =>
          if hs.length > 0 then
            let movedHeight := (listGetInt hs fromIndex).getD 0
            some (jsSpliceInsert (jsSpliceRemove hs fromIndex) toIndex movedHeight)
          else some hs
        | none => none
      let st1 := updateSheet st { sheet with cells := newCells, rowHeights := newRowHeights }
      let st2 := updateFormulasAfterRowReorder st1 fromIndex toIndex
      addToHistory st2 { type := "row-reorder", sheetId := sheet.id
                         fromIndex := some fromIndex, toIndex := some toIndex }

/-- reorderColumn of spreadsheet-data.service.ts: the column
analogue with the colCount guard. -/
def reorderColumn (st : ServiceState) (fromIndex toIndex : Int) : ServiceState :=
  match getActiveSheet st with
  | none => st
  | some sheet =>
    if fromIndex < 0 ∨ fromIndex ≥ sheet.colCount ∨
        toIndex < 0 ∨ toIndex ≥ sheet.colCount ∨ fromIndex = toIndex then st
    else
      let newCells := sheet.cells.map fun row =>
        let movedCell := (listGetInt row fromIndex).getD (createEmptyCell 0 0)
        let newRow := jsSpliceInsert (jsSpliceRemove row fromIndex) toIndex movedCell
        mapWithIndex (fun colIdx cell => { cell with col := (colIdx : Int) }) newRow 0
      let newColumnWidths := match sheet.columnWidths with
        | some ws =>
          if ws.length > 0 then
            let movedWidth := (listGetInt ws fromIndex).getD 0
            some (jsSpliceInsert (jsSpliceRemove ws fromIndex) toIndex movedWidth)
          else some ws
        | none => none
      let st1 := updateSheet st { sheet with cells := newCells, columnWidths := newColumnWidths }
      let st2 := updateFormulasAfterColumnReorder st1 fromIndex toIndex
      addToHistory st2 { type := "col-reorder", sheetId := sheet.id
                         fromIndex := some fromIndex, toIndex := some toIndex }

/-! ## Projections used by the theorems -/

/-- The value field of every cell (the formula texts / raw values). -/
def gridValues (cells : Grid) : List (List CellValue) :=
  cells.map fun row => row.map fun cell => cell.value

/-- The displayValue field of every cell. -/
def gridDisplays (cells : Grid) : List (List (Option String)) :=
  cells.map fun row => row.map fun cell => cell.displayValue

/-! ## Spec-side definitions (refinement claims only)

These definitions follow the wording of the claims (as amended where
a counterexample forces it), to be compared with the definitions
embedded from the source. -/

/-- Modelled from the amended claim C6: under a row reorder moving
index fromIndex to toIndex, a reference row index equal to fromIndex
becomes toIndex; indices in the half-open interval between them that
includes toIndex (that is, (fromIndex, toIndex] when moving down and
[toIndex, fromIndex) when moving up) shift by one toward fromIndex;
every other index is unchanged. -/
def reorderIndexMapSpec (fromIndex toIndex r : Int) : Int :=
  if r = fromIndex then toIndex
  else if fromIndex < toIndex ∧ fromIndex < r ∧ r ≤ toIndex then r - 1
  else if toIndex < fromIndex ∧ toIndex ≤ r ∧ r < fromIndex then r + 1
  else r

/-- Modelled from the amended claim C6 (row half): every reference
token keeps its $ markers and its column letters verbatim and has its
row index remapped through reorderIndexMapSpec (re-rendered in
canonical decimal). -/
def specUpdateRowRefs (formula : String) (fromIndex toIndex : Int) : String :=
  jsReplaceRefs (fun t =>
    (if t.dollarCol then "$" else "") ++ String.mk t.colLetters ++
      (if t.dollarRow then "$" else "") ++
      intToString (reorderIndexMapSpec fromIndex toIndex
        ((digitsVal t.rowDigits : Int) - 1) + 1)) formula

/-- Modelled from the amended claim C6 (column half): every reference
token keeps its $ markers and its row digits verbatim and has its
column index remapped through reorderIndexMapSpec (re-rendered in
canonical letters). -/
def specUpdateColumnRefs (formula : String) (fromIndex toIndex : Int) : String :=
  jsReplaceRefs (fun t =>
    (if t.dollarCol then "$" else "") ++
      indexToColumnLetter (reorderIndexMapSpec fromIndex toIndex
        (columnLetterToIndex (String.mk t.colLetters))) ++
      (if t.dollarRow then "$" else "") ++ String.mk t.rowDigits) formula

/-- Modelled from the amended claim C7: after reference substitution,
the comparison operators are matched left-to-right in the order
>= <= <> > < = (first contained operator wins, splitting at its first
occurrence); >= <= > < parse both sides with parseFloat and are false
on an unparsable side; <> and = compare the trimmed, quote-stripped
sides as case-SENSITIVE strings; with no operator the condition is
truthiness of parseFloat. -/
def condEvalSpec (evaluated : String) : Bool :=
  if jsIncludes evaluated ">=" then
    numericCompareAt evaluated ">=" (fun x y => decide (x ≥ y))
  else if jsIncludes evaluated "<=" then
    numericCompareAt evaluated "<=" (fun x y => decide (x ≤ y))
  else if jsIncludes evaluated "<>" then
    stripQuotes ((jsSplitOn evaluated "<>").headD "") ≠
      stripQuotes (((jsSplitOn evaluated "<>").get? 1).getD "")
  else if jsIncludes evaluated ">" then
    numericCompareAt evaluated ">" (fun x y => decide (x > y))
  else if jsIncludes evaluated "<" then
    numericCompareAt evaluated "<" (fun x y => decide (x < y))
  else if jsIncludes evaluated "=" then
    stripQuotes ((jsSplitOn evaluated "=").headD "") =
      stripQuotes (((jsSplitOn evaluated "=").get? 1).getD "")
  else
    match parseFloatQ evaluated with
    | some q => decide (q ≠ 0)
    | none => false

/-- The no-leading-zero condition of the amended claim C2: the digit
part is a single digit, or starts with a nonzero digit (JS String()
never prints a leading zero, so only these digit parts round-trip
verbatim). -/
def noLeadingZero : List Char → Bool
  | [] => false
  | [_] => true
  | c :: _ :: _ => c != '0'

/-! ## Concrete fixtures for the counterexamples and witnesses -/

/-- A grid whose A1 holds the formula "=A1" (claim C1). -/
def c1Cells : Grid := [[{ row := 0, col := 0, value := .str "=A1" }]]

/-- A1 holds the text "hello", A2 the number 5 (claim C4). -/
def c4Cells : Grid :=
  [[{ row := 0, col := 0, value := .str "hello" }],
   [{ row := 1, col := 0, value := .num 5 }]]

/-- A 2×2 sheet whose B1 holds "=SUM(A1:A2)" (claim C5). -/
def c5Sheet : Sheet :=
  { id := "s1", name := "Sheet1", rowCount := 2, colCount := 2,
    cells := [[{ row := 0, col := 0, value := .num 1 },
               { row := 0, col := 1, value := .str "=SUM(A1:A2)" }],
              [{ row := 1, col := 0, value := .num 2 },
               { row := 1, col := 1, value := .num 0 }]] }

/-- Service state holding c5Sheet as the active sheet. -/
def c5State : ServiceState := { data := { sheets := [c5Sheet], activeSheetIndex := 0 } }

/-- A one-cell grid holding "=1+1" (claim C3 witness: its first
recalculation pass changes the display, the next one does not). -/
def c3Cells : Grid := [[{ row := 0, col := 0, value := .str "=1+1" }]]

/-! ## Theorems for the claims -/

/-! ### List scanning lemmas -/

theorem length_dropWhile_le (p : Char → Bool) (l : List Char) :
    (l.dropWhile p).length ≤ l.length := by
  induction l with
  | nil => simp
  | cons c cs ih =>
    by_cases h : p c
    · simp only [List.dropWhile, h]
      have h2 : (c :: cs).length = cs.length + 1 := List.length_cons c cs
      omega
    · simp [List.dropWhile, h]

theorem takeWhile_ne_nil_dropWhile_lt {p : Char → Bool} {l : List Char}
    (h : l.takeWhile p ≠ []) : (l.dropWhile p).length < l.length := by
  cases l with
  | nil => simp [List.takeWhile] at h
  | cons c cs =>
    by_cases hp : p c
    · simp only [List.dropWhile, hp]
      have h1 := length_dropWhile_le p cs
      have h2 : (c :: cs).length = cs.length + 1 := List.length_cons c cs
      omega
    · simp [List.takeWhile, hp] at h

theorem splitLeadDollar_len (l : List Char) :
    (splitLeadDollar l).2.length ≤ l.length := by
  unfold splitLeadDollar
  split <;> simp

theorem splitInnerDollar_len (l : List Char) :
    (splitInnerDollar l).2.length ≤ l.length := by
  unfold splitInnerDollar
  split
  · split <;> simp
  · simp

theorem matchRefAt_rest_length {l rest : List Char} {t : RefToken}
    (h : matchRefAt l = some (t, rest)) : rest.length < l.length := by
  simp only [matchRefAt] at h
  split at h
  · exact absurd h (by simp)
  split at h
  · exact absurd h (by simp)
  rename_i hletters hdigits
  simp only [Option.some.injEq, Prod.mk.injEq] at h
  obtain ⟨-, hrest⟩ := h
  subst hrest
  have s1 : ((splitLeadDollar l).2).length ≤ l.length := splitLeadDollar_len l
  have s2 : ((splitLeadDollar l).2.dropWhile isUpperAZ).length <
      ((splitLeadDollar l).2).length :=
    takeWhile_ne_nil_dropWhile_lt (by simpa using hletters)
  have s3 := splitInnerDollar_len ((splitLeadDollar l).2.dropWhile isUpperAZ)
  have s4 : ((splitInnerDollar ((splitLeadDollar l).2.dropWhile isUpperAZ)).2.dropWhile
      isDigit09).length <
      ((splitInnerDollar ((splitLeadDollar l).2.dropWhile isUpperAZ)).2).length :=
    takeWhile_ne_nil_dropWhile_lt (by simpa using hdigits)
  omega

/-- C1: the claim (and the repository's own README/manual, which
promise that circular references are detected and display "#ERROR!")
says evaluate of "=A1" stored in A1 returns Error(CircularReference)
shown as "#ERROR!", not the numeric value 0.  The code does throw
Error('Circular reference') on the direct self-reference, but the
throw sits inside the replacement callback's own try/catch, whose
catch returns '0'; the expression therefore evaluates to the number
0.  This theorem evaluates the embedded code at the failing input:
the result is the number 0 and not the "#ERROR!" sentinel. -/
theorem c1_direct_self_reference_evaluates_to_zero :
    evaluateFormula 30 "=A1" c1Cells 0 0 = .num 0 ∧
      evaluateFormula 30 "=A1" c1Cells 0 0 ≠ .str "#ERROR!" := by
  decide

/-- C2 counterexample: "A01" matches [$]?[A-Z]+[$]?[0-9]+, but the
round trip renders the parsed address back as "A1", not "A01" (the
leading zero of the row number is not preserved). -/
theorem c2_roundtrip_fails_on_leading_zero :
    matchesA1 "A01" ∧
      (a1ToCellAddress "A01").map cellAddressToA1 = some "A1" ∧
      ("A1" : String) ≠ "A01" := by
  refine ⟨⟨[], ['A'], [], ['0', '1'], by decide⟩, by decide, by decide⟩

/-- C4 counterexample: with A1 = "hello" (non-numeric) and A2 = 5,
the claim says COUNT(A1:A2) returns 1 (only the numeric cell), but
the code returns 2: getCellNumericValue maps the unparsable cell to
0 rather than NaN, so the isNaN filter never excludes it and COUNT
counts every cell present in the range.  (The repository's own unit
test asserts this value 2, noting that the implementation converts
non-numeric values to 0 and counts them.) -/
theorem c4_count_counts_nonnumeric_cells :
    evaluateFormula 30 "=COUNT(A1:A2)" c4Cells 0 0 = .num 2 ∧
      ((getRangeCells "A1:A2" c4Cells).filter fun cell =>
        match cell.value with | .num _ => true | _ => false).length = 1 ∧
      (ResultValue.num 2) ≠ .num 1 := by
  decide

/-- C5 counterexample: inserting a row at index 1 in a sheet whose B1
holds "=SUM(A1:A2)" (whose range-end row 1 sits at the insertion
point) leaves that formula text verbatim — insertRow only splices the
cell matrix and renumbers the row fields; no reference in any formula
is rewritten to "=SUM(A1:A3)" as the claim requires. -/
theorem c5_insert_row_leaves_formula_text_unchanged :
    gridValues (((insertRow c5State 1).data.sheets.headD c5Sheet).cells) =
      [[.num 1, .str "=SUM(A1:A2)"],
       [.str "", .str ""],
       [.num 2, .num 0]] ∧
      (CellValue.str "=SUM(A1:A2)") ≠ .str "=SUM(A1:A3)" := by
  decide

/-- C6 counterexample: after reorderRow 0 2 (moving row index 0 to
index 2), the reference A3 has row index 2, which is neither the
moved index 0 nor strictly between 0 and 2, so the claim says it is
unchanged; the code shifts the half-open interval (0, 2] including
the destination index, rewriting A3 to A2. -/
theorem c6_destination_index_is_shifted :
    updateRowReferencesInFormula "=A3" 0 2 = "=A2" ∧ ("=A2" : String) ≠ "=A3" := by
  decide

/-- C7 counterexample: the condition "ABC"="abc" (equal up to case)
evaluates to false — the = comparison strips quotes and compares the
sides as case-SENSITIVE strings — so IF("ABC"="abc",1,2) yields 2,
while the claim (case-insensitive comparison) predicts true and 1. -/
theorem c7_string_equality_is_case_sensitive :
    evaluateCondition 10 "\"ABC\"=\"abc\"" [] 0 0 = false ∧
      evaluateFormula 30 "=IF(\"ABC\"=\"abc\",1,2)" [] 0 0 = .num 2 := by
  decide

/-- C8 counterexample: "A0" matches the pattern, parses successfully,
and yields row = -1, violating the claimed invariant row ≥ 0 (the
code computes parseInt("0") - 1 with no lower bound). -/
theorem c8_row_zero_parses_to_negative_row :
    a1ToCellAddress "A0" =
        some { row := -1, col := 0, absoluteRow := false, absoluteCol := false } ∧
      matchesA1 "A0" ∧ ¬ (0 ≤ (-1 : Int)) := by
  refine ⟨by decide, ⟨[], ['A'], [], ['0'], by decide⟩, by decide⟩

/-- C9: evaluateFormula never lets an internal evaluation error
escape: for every formula, grid, current address and fuel, the public
result is either the value computed by the try-block body
(evalFormulaBody) or — whenever that body raised any error — the
literal sentinel string "#ERROR!".  Lookup and condition misses are
not errors but ordinary "#N/A" values inside the ok branch, and
recalculation applies this total function cell by cell, so the rest
of the sheet always recalculates. -/
theorem c9_evaluate_catches_every_internal_error :
    ∀ (fuel : Nat) (formula : String) (cells : Grid) (currentRow currentCol : Int),
      evaluateFormula fuel formula cells currentRow currentCol = .str "#ERROR!" ∨
      ∃ v, evalFormulaBody (fuel - 1) formula cells currentRow currentCol = .ok v ∧
        evaluateFormula fuel formula cells currentRow currentCol = v := by
  intro fuel formula cells currentRow currentCol
  cases fuel with
  | zero => left; rfl
  | succ n =>
    cases h : evalFormulaBody n formula cells currentRow currentCol with
    | ok v =>
      right
      exact ⟨v, by simpa using h, by simp [evaluateFormula, h]⟩
    | error e =>
      left
      simp [evaluateFormula, h]

/-- C10: reorderRow with fromIndex or toIndex outside [0, rowCount)
or with fromIndex = toIndex returns the state unchanged — same cells,
formula texts, row heights and counts, and no history entry — and
reorderColumn has the same guard with respect to colCount. -/
theorem c10_reorder_guard_is_noop :
    ∀ (st : ServiceState) (sheet : Sheet) (fromIndex toIndex : Int),
      getActiveSheet st = some sheet →
      ((fromIndex < 0 ∨ fromIndex ≥ sheet.rowCount ∨
          toIndex < 0 ∨ toIndex ≥ sheet.rowCount ∨ fromIndex = toIndex) →
        reorderRow st fromIndex toIndex = st) ∧
      ((fromIndex < 0 ∨ fromIndex ≥ sheet.colCount ∨
          toIndex < 0 ∨ toIndex ≥ sheet.colCount ∨ fromIndex = toIndex) →
        reorderColumn st fromIndex toIndex = st) := by
  intro st sheet fromIndex toIndex hactive
  constructor
  · intro hguard
    unfold reorderRow
    rw [hactive]
    simp only [if_pos hguard]
  · intro hguard
    unfold reorderColumn
    rw [hactive]
    simp only [if_pos hguard]

/-- C10 witness: the guard theorem applied to the concrete state
c5State with equal indices, for both operations. -/
theorem c10_reorder_guard_witness :
    reorderRow c5State 0 0 = c5State ∧ reorderColumn c5State 0 0 = c5State := by
  have h := c10_reorder_guard_is_noop c5State c5Sheet 0 0 (by decide)
  exact ⟨h.1 (Or.inr (Or.inr (Or.inr (Or.inr rfl)))),
         h.2 (Or.inr (Or.inr (Or.inr (Or.inr rfl))))⟩

/-! ### mapWithIndex and splice lemmas (claim C5) -/

theorem map_of_mapWithIndex {α β γ : Type} (F : Nat → α → β) (g : β → γ) (g2 : α → γ)
    (h : ∀ n x, g (F n x) = g2 x) :
    ∀ (l : List α) (i : Nat), (mapWithIndex F l i).map g = l.map g2 := by
  intro l
  induction l with
  | nil => intro i; rfl
  | cons x xs ih =>
    intro i
    simp only [mapWithIndex, List.map_cons, h, ih]

theorem map_jsSpliceInsert {α β : Type} (g : α → β) (l : List α) (atIndex : Int) (x : α) :
    (jsSpliceInsert l atIndex x).map g = jsSpliceInsert (l.map g) atIndex (g x) := by
  simp [jsSpliceInsert, spliceIndex, List.map_take, List.map_drop]

theorem map_jsSpliceRemove {α β : Type} (g : α → β) (l : List α) (atIndex : Int) :
    (jsSpliceRemove l atIndex).map g = jsSpliceRemove (l.map g) atIndex := by
  simp [jsSpliceRemove, spliceIndex, List.map_take, List.map_drop]

theorem map_map_congr {α β γ : Type} (f : α → β) (g : β → γ) (g2 : α → γ)
    (h : ∀ x, g (f x) = g2 x) (l : List α) : (l.map f).map g = l.map g2 := by
  induction l with
  | nil => rfl
  | cons x xs ih => simp_all

theorem rowValues_of_renumber (row : List Cell) (r : Int) :
    (row.map fun cell => { cell with row := r }).map (fun cell => cell.value) =
      row.map fun cell => cell.value := by
  induction row with
  | nil => rfl
  | cons c cs ih => simp_all

theorem colValues_of_renumber (row : List Cell) (r : Int) :
    (row.map fun cell => { cell with col := r }).map (fun cell => cell.value) =
      row.map fun cell => cell.value := by
  induction row with
  | nil => rfl
  | cons c cs ih => simp_all

/-- C5: the claim says insertRow (and deleteRow and the column
analogues) shifts the row/column indices embedded in formula
references; in fact none of the four structural edits touches any
formula text.  Amended: the value fields of the grid (raw values and
formula texts) after each edit are exactly the old ones with one
row/column of empty-string values spliced in or out, so every
pre-existing formula text is preserved verbatim. -/
theorem c5_amended_structural_edits_preserve_formula_text :
    ∀ (sheet : Sheet) (atIndex : Int),
      gridValues (insertRowSheet sheet atIndex).cells =
        jsSpliceInsert (gridValues sheet.cells) atIndex
          ((intRange 0 (sheet.colCount - 1)).map fun _ => .str "") ∧
      gridValues (deleteRowSheet sheet atIndex).cells =
        jsSpliceRemove (gridValues sheet.cells) atIndex ∧
      gridValues (insertColumnSheet sheet atIndex).cells =
        (sheet.cells.map fun row =>
          jsSpliceInsert (row.map fun cell => cell.value) atIndex (.str "")) ∧
      gridValues (deleteColumnSheet sheet atIndex).cells =
        (sheet.cells.map fun row =>
          jsSpliceRemove (row.map fun cell => cell.value) atIndex) := by
  intro sheet atIndex
  refine ⟨?_, ?_, ?_, ?_⟩
  · simp only [insertRowSheet, gridValues]
    rw [map_of_mapWithIndex _ _ (fun row => row.map fun cell => cell.value)
      (fun n row => by
        by_cases h : atIndex + 1 ≤ (n : Int) <;> simp [h, rowValues_of_renumber])]
    rw [map_jsSpliceInsert]
    congr 1
    simp [List.map_map, createEmptyCell, Function.comp_def]
  · simp only [deleteRowSheet, gridValues]
    rw [map_of_mapWithIndex _ _ (fun row => row.map fun cell => cell.value)
      (fun n row => by
        by_cases h : atIndex ≤ (n : Int) <;> simp [h, rowValues_of_renumber])]
    rw [map_jsSpliceRemove]
  · simp only [insertColumnSheet, gridValues]
    rw [map_of_mapWithIndex _ _
      (fun row => jsSpliceInsert (row.map fun cell => cell.value) atIndex (.str ""))
      (fun n row => by
        rw [map_of_mapWithIndex _ _ (fun cell => cell.value)
          (fun m cell => by
            by_cases h : atIndex + 1 ≤ (m : Int) <;> simp [h])]
        rw [map_jsSpliceInsert]
        simp [createEmptyCell])]
  · simp only [deleteColumnSheet, gridValues]
    rw [map_map_congr _ _ (fun row => jsSpliceRemove (row.map fun cell => cell.value) atIndex)
      (fun row => by
        rw [map_of_mapWithIndex _ _ (fun cell => cell.value)
          (fun m cell => by
            by_cases h : atIndex ≤ (m : Int) <;> simp [h])]
        rw [map_jsSpliceRemove])]

/-- C6: the claim describes the index remap of a reorder as sending
fromIndex to toIndex and shifting only the indices strictly between
them; the code also shifts the destination index itself (see the
counterexample).  Amended with the half-open interval including
toIndex, the rewrite functions equal the spec-side rewriters (every
token keeps its $ markers and the untouched coordinate verbatim, the
reordered coordinate is remapped through reorderIndexMapSpec), and
the remap is injective on indices, i.e. a permutation. -/
theorem c6_amended_reference_remap :
    ∀ (formula : String) (fromIndex toIndex : Int),
      updateRowReferencesInFormula formula fromIndex toIndex =
        specUpdateRowRefs formula fromIndex toIndex ∧
      updateColumnReferencesInFormula formula fromIndex toIndex =
        specUpdateColumnRefs formula fromIndex toIndex ∧
      (∀ r s : Int, reorderIndexMapSpec fromIndex toIndex r =
        reorderIndexMapSpec fromIndex toIndex s → r = s) := by
  intro formula fromIndex toIndex
  refine ⟨rfl, rfl, ?_⟩
  intro r s h
  unfold reorderIndexMapSpec at h
  split_ifs at h <;> omega

/-- C6 witness: the remap injectivity applied at concrete indices,
together with concrete instances of the rewrite equalities. -/
theorem c6_amended_reference_remap_witness :
    updateRowReferencesInFormula "=SUM(A1:$B$3)" 0 2 = specUpdateRowRefs "=SUM(A1:$B$3)" 0 2 ∧
      ((3 : Int) = 3) := by
  have h := c6_amended_reference_remap "=SUM(A1:$B$3)" 0 2
  exact ⟨h.1, h.2.2 3 3 (by decide)⟩

/-! ### Range-length lemmas (claim C4) -/

theorem length_filterMap_congr {α β γ : Type} (f : α → Option β) (g : α → Option γ)
    (h : ∀ a, (f a).isSome = (g a).isSome) :
    ∀ l : List α, (l.filterMap f).length = (l.filterMap g).length := by
  intro l
  induction l with
  | nil => rfl
  | cons a as ih =>
    have ha := h a
    cases hf : f a <;> cases hg : g a <;> simp [hf, hg] at ha ⊢ <;> omega

theorem length_flatten_map_congr {α β γ : Type} (f : α → List β) (g : α → List γ)
    (h : ∀ a, (f a).length = (g a).length) :
    ∀ l : List α, ((l.map f).flatten).length = ((l.map g).flatten).length := by
  intro l
  induction l with
  | nil => rfl
  | cons a as ih => simp [h a, ih]

/-- C4: the claim says COUNT excludes non-numeric cells; in fact it
counts them (see the counterexample).  Amended: (i) COUNT returns the
length of the getRangeValues list; (ii) that list holds exactly one
value per cell present in the range — the same cells getRangeCells
returns, numeric or not, because getCellNumericValue never produces
NaN and the isNaN filter excludes nothing; (iii) a cell holding a
non-formula, unparsable string contributes the value 0; and (iv) SUM
is the plain sum of those per-cell values — so non-numeric cells
contribute 0 to SUM (and AVERAGE, which divides by the same length)
while still being counted by COUNT. -/
theorem c4_amended_range_aggregation :
    ∀ (fuel : Nat) (expression range : String) (cells : Grid) (cell : Cell),
      evaluateCount (fuel + 1) expression cells =
        JsNum.ofNat ((getRangeValues fuel (extractRange expression) cells).length) ∧
      ((getRangeValues (fuel + 1) range cells).length =
        (getRangeCells range cells).length) ∧
      (∀ s, cell.value = .str s → jsStartsWith s "=" = false → parseFloatQ s = none →
        getCellNumericValue (fuel + 1) cell cells = 0) ∧
      evaluateSum (fuel + 1) expression cells =
        (getRangeValues fuel (extractRange expression) cells).foldl (· + ·) 0 := by
  intro fuel expression range cells cell
  refine ⟨rfl, ?_, ?_, rfl⟩
  · cases hrb : rangeBounds range with
    | none => simp [getRangeValues, getRangeCells, hrb]
    | some bounds =>
      obtain ⟨minRow, maxRow, minCol, maxCol⟩ := bounds
      simp only [getRangeValues, getRangeCells, hrb]
      refine length_flatten_map_congr _ _ ?_ _
      intro row
      refine length_filterMap_congr _ _ ?_ _
      intro col
      cases hc : getCell2D cells row col <;> simp [hc, jsIsNaN]
  · intro s hvalue hstart hparse
    simp [getCellNumericValue, hvalue, hstart, hparse]

/-- C4 witness: the amended theorem applied to the counterexample
grid and its non-numeric cell. -/
theorem c4_amended_range_aggregation_witness :
    ((getRangeValues 6 "A1:A2" c4Cells).length = (getRangeCells "A1:A2" c4Cells).length) ∧
      getCellNumericValue 6 { row := 0, col := 0, value := .str "hello" } c4Cells = 0 := by
  have h := c4_amended_range_aggregation 5 "COUNT(A1:A2)" "A1:A2" c4Cells
    { row := 0, col := 0, value := .str "hello" }
  exact ⟨h.2.1, h.2.2.1 "hello" rfl (by decide) (by decide)⟩

/-! ### Recalculation lemmas (claim C3) -/

theorem recalcPassCount_le (fuel : Nat) :
    ∀ (budget : Nat) (g : Grid), recalcPassCount fuel budget g ≤ budget := by
  intro budget
  induction budget with
  | zero => intro g; simp [recalcPassCount]
  | succ b ih =>
    intro g
    simp only [recalcPassCount]
    split
    · have := ih (recalcPass fuel g).1
      omega
    · omega

theorem recalcCellStep_snd_iff (fuel : Nat) (g : Grid) (r c : Int) (cell : Cell) :
    (recalcCellStep fuel g r c cell).2 = true ↔
      (recalcCellStep fuel g r c cell).1.displayValue ≠ cell.displayValue := by
  obtain ⟨row, col, value, display, dt, dp⟩ := cell
  cases value with
  | str s =>
    by_cases h : jsStartsWith s "=" <;>
      simp [recalcCellStep, h, decide_eq_true_eq, ne_comm]
  | num q => simp [recalcCellStep]
  | bool b => simp [recalcCellStep]

theorem any_iff_map_ne {α β γ : Type} (F : Nat → α → β) (pr : β → Bool) (pj : β → γ)
    (pj0 : α → γ)
    (h : ∀ i x, pr (F i x) = true ↔ pj (F i x) ≠ pj0 x) :
    ∀ (l : List α) (i : Nat),
      ((mapWithIndex F l i).any pr = true) ↔
        ((mapWithIndex F l i).map pj ≠ l.map pj0) := by
  intro l
  induction l with
  | nil => intro i; simp [mapWithIndex]
  | cons x xs ih =>
    intro i
    simp only [mapWithIndex, List.any_cons, Bool.or_eq_true, List.map_cons, ne_eq,
      List.cons.injEq, not_and_or, h i x, ih (i + 1)]

/-- C3: recalculation runs at most 10 full passes; each pass
re-evaluates every formula cell (row-major, against the pass-start
grid, see recalcPass); the loop stops right after a pass whose
hasChanges flag is false and runs another pass whenever it is true;
and the hasChanges flag of a pass is true exactly when some cell's
display string changed in that pass. -/
theorem c3_recalculation_pass_structure :
    ∀ (fuel : Nat) (sheet : Sheet) (g : Grid) (budget : Nat),
      recalculateFormulasInSheet fuel sheet =
        { sheet with cells := recalcLoop fuel 10 sheet.cells } ∧
      recalcPassCount fuel 10 g ≤ 10 ∧
      ((recalcPass fuel g).2 = false →
        recalcLoop fuel (budget + 1) g = (recalcPass fuel g).1 ∧
        recalcPassCount fuel (budget + 1) g = 1) ∧
      ((recalcPass fuel g).2 = true →
        recalcLoop fuel (budget + 1) g = recalcLoop fuel budget (recalcPass fuel g).1 ∧
        recalcPassCount fuel (budget + 1) g =
          recalcPassCount fuel budget (recalcPass fuel g).1 + 1) ∧
      ((recalcPass fuel g).2 = true ↔ gridDisplays (recalcPass fuel g).1 ≠ gridDisplays g) := by
  intro fuel sheet g budget
  refine ⟨rfl, recalcPassCount_le fuel 10 g, ?_, ?_, ?_⟩
  · intro h
    constructor
    · simp [recalcLoop, h]
    · simp [recalcPassCount, h]
  · intro h
    constructor
    · simp [recalcLoop, h]
    · simp [recalcPassCount, h]
  · have key := any_iff_map_ne
      (fun rowIndex row => mapWithIndex (fun colIndex cell =>
        recalcCellStep fuel g (rowIndex : Int) (colIndex : Int) cell) row 0)
      (fun row => row.any Prod.snd)
      (fun steppedRow => steppedRow.map fun p => p.1.displayValue)
      (fun row => row.map fun cell => cell.displayValue)
      (fun i x => any_iff_map_ne
        (fun colIndex cell => recalcCellStep fuel g (i : Int) (colIndex : Int) cell)
        Prod.snd (fun p => p.1.displayValue)
        (fun cell => cell.displayValue)
        (fun j y => recalcCellStep_snd_iff fuel g (i : Int) (j : Int) y) x 0)
      g 0
    simp only [recalcPass]
    rw [key]
    simp only [gridDisplays, List.map_map, Function.comp_def]

/-- C3 witness: on the one-cell grid holding "=1+1" the first pass
changes the display (so the loop continues), and after it the next
pass changes nothing (so the loop stops with that pass's grid). -/
theorem c3_recalculation_pass_structure_witness :
    recalcLoop 50 10 c3Cells = recalcLoop 50 9 (recalcPass 50 c3Cells).1 ∧
      recalcLoop 50 9 (recalcPass 50 c3Cells).1 = (recalcPass 50 (recalcPass 50 c3Cells).1).1 ∧
      recalcPassCount 50 10 c3Cells = 2 := by
  have h1 := c3_recalculation_pass_structure 50 c5Sheet c3Cells 9
  have h2 := c3_recalculation_pass_structure 50 c5Sheet (recalcPass 50 c3Cells).1 8
  refine ⟨(h1.2.2.2.1 (by decide)).1, (h2.2.2.1 (by decide)).1, ?_⟩
  rw [(h1.2.2.2.1 (by decide)).2, (h2.2.2.1 (by decide)).2]

/-- C7: the claim says = and <> compare non-numeric operands
case-insensitively; in fact the comparison is case-sensitive (see the
counterexample).  Amended: condition evaluation first substitutes the
cell references, then behaves exactly as condEvalSpec — operators
matched left-to-right in the order >= <= <> > < = (so >= is checked
before >), numeric comparison via parseFloat for the four inequality
operators, case-SENSITIVE quote-stripped string comparison for = and
<>, and parseFloat truthiness with no operator. -/
theorem c7_amended_condition_semantics :
    ∀ (fuel : Nat) (condition : String) (cells : Grid) (currentRow currentCol : Int),
      evaluateCondition (fuel + 1) condition cells currentRow currentCol =
        condEvalSpec (replaceCellReferences fuel condition cells currentRow currentCol) := by
  intro fuel condition cells currentRow currentCol
  rfl

/-! ### Reference-string lemmas (claims C2 and C8) -/

theorem upperAZ_toNat_bounds (c : Char) (h : isUpperAZ c = true) :
    65 ≤ c.toNat ∧ c.toNat ≤ 90 := by
  simp [isUpperAZ, Char.le_def] at h
  exact h

theorem digit09_toNat_bounds (c : Char) (h : isDigit09 c = true) :
    48 ≤ c.toNat ∧ c.toNat ≤ 57 := by
  simp [isDigit09, Char.le_def] at h
  exact h

theorem upperAZ_ne_dollar (c : Char) (h : isUpperAZ c = true) : c ≠ '$' := by
  intro hc; subst hc; exact absurd h (by decide)

theorem digit09_ne_dollar (c : Char) (h : isDigit09 c = true) : c ≠ '$' := by
  intro hc; subst hc; exact absurd h (by decide)

theorem digit09_not_upper (c : Char) (h : isDigit09 c = true) : isUpperAZ c = false := by
  have hb := digit09_toNat_bounds c h
  by_contra hu
  have hu' : isUpperAZ c = true := by
    cases hval : isUpperAZ c
    · exact absurd hval hu
    · rfl
  have := upperAZ_toNat_bounds c hu'
  omega

theorem splitLeadDollar_cons_ne (c : Char) (rest : List Char) (h : c ≠ '$') :
    splitLeadDollar (c :: rest) = (false, c :: rest) := by
  unfold splitLeadDollar
  split
  · next heq => injection heq with h1 _; exact absurd h1 h
  · rfl

theorem splitLeadDollar_spec (l : List Char) :
    l = (if (splitLeadDollar l).1 then ['$'] else []) ++ (splitLeadDollar l).2 := by
  cases l with
  | nil => rfl
  | cons c rest =>
    by_cases hc : c = '$'
    · subst hc; rfl
    · rw [splitLeadDollar_cons_ne c rest hc]; rfl

theorem takeWhile_all_eq {p : Char → Bool} : ∀ (l : List Char),
    (∀ c ∈ l, p c = true) → l.takeWhile p = l := by
  intro l
  induction l with
  | nil => intro _; rfl
  | cons c cs ih =>
    intro h
    simp [List.takeWhile_cons, h c (by simp), ih fun x hx => h x (by simp [hx])]

theorem dropWhile_all_eq {p : Char → Bool} : ∀ (l : List Char),
    (∀ c ∈ l, p c = true) → l.dropWhile p = [] := by
  intro l
  induction l with
  | nil => intro _; rfl
  | cons c cs ih =>
    intro h
    simp [List.dropWhile_cons, h c (by simp), ih fun x hx => h x (by simp [hx])]

theorem takeWhile_append_all {p : Char → Bool} : ∀ (L rest : List Char),
    (∀ c ∈ L, p c = true) → (L ++ rest).takeWhile p = L ++ rest.takeWhile p := by
  intro L
  induction L with
  | nil => intro rest _; rfl
  | cons c cs ih =>
    intro rest h
    simp [List.takeWhile_cons, h c (by simp), ih rest fun x hx => h x (by simp [hx])]

theorem dropWhile_append_all {p : Char → Bool} : ∀ (L rest : List Char),
    (∀ c ∈ L, p c = true) → (L ++ rest).dropWhile p = rest.dropWhile p := by
  intro L
  induction L with
  | nil => intro rest _; rfl
  | cons c cs ih =>
    intro rest h
    simp [List.dropWhile_cons, h c (by simp), ih rest fun x hx => h x (by simp [hx])]

theorem a1_parse_of_decomp (s : String) (b1 : Bool) (L : List Char) (b2 : Bool)
    (D : List Char)
    (hs : s.toList = (if b1 then ['$'] else []) ++ L ++ (if b2 then ['$'] else []) ++ D)
    (hL : L ≠ []) (hLu : ∀ c ∈ L, isUpperAZ c = true)
    (hD : D ≠ []) (hDd : ∀ c ∈ D, isDigit09 c = true) :
    a1ToCellAddress s =
      some { row := (digitsVal D : Int) - 1, col := colLetterToIndex (String.mk L),
             absoluteRow := b2, absoluteCol := b1 } := by
  obtain ⟨cD, D', rfl⟩ : ∃ cD D', D = cD :: D' := by
    cases D with
    | nil => exact absurd rfl hD
    | cons x xs => exact ⟨x, xs, rfl⟩
  have hcD : isDigit09 cD = true := hDd _ (by simp)
  have hsplit2 : splitLeadDollar ((if b2 then ['$'] else []) ++ cD :: D') =
      (b2, cD :: D') := by
    cases b2
    · simpa using splitLeadDollar_cons_ne cD D' (digit09_ne_dollar cD hcD)
    · rfl
  have htakeL : ((if b2 then ['$'] else []) ++ cD :: D').takeWhile isUpperAZ = [] := by
    cases b2
    · simp [List.takeWhile_cons, digit09_not_upper cD hcD]
    · simp [List.takeWhile_cons, (by decide : isUpperAZ '$' = false)]
  have hdropL : ((if b2 then ['$'] else []) ++ cD :: D').dropWhile isUpperAZ =
      (if b2 then ['$'] else []) ++ cD :: D' := by
    cases b2
    · simp [List.dropWhile_cons, digit09_not_upper cD hcD]
    · simp [List.dropWhile_cons, (by decide : isUpperAZ '$' = false)]
  have hsplit1 : splitLeadDollar (s.toList) =
      (b1, L ++ (if b2 then ['$'] else []) ++ cD :: D') := by
    rw [hs]
    cases b1
    · obtain ⟨cL, L', rfl⟩ : ∃ cL L', L = cL :: L' := by
        cases L with
        | nil => exact absurd rfl hL
        | cons x xs => exact ⟨x, xs, rfl⟩
      have hcL : isUpperAZ cL = true := hLu _ (by simp)
      simpa using splitLeadDollar_cons_ne cL _ (upperAZ_ne_dollar cL hcL)
    · simp [splitLeadDollar]
  simp only [a1ToCellAddress, hsplit1]
  rw [List.append_assoc, takeWhile_append_all L _ hLu,
    dropWhile_append_all L _ hLu, htakeL, hdropL, hsplit2]
  rw [takeWhile_all_eq (cD :: D') hDd, dropWhile_all_eq (cD :: D') hDd]
  simp [List.isEmpty_iff, hL]

theorem letterFoldl_ge_one : ∀ (L : List Char) (a : Int), 1 ≤ a →
    (∀ c ∈ L, isUpperAZ c = true) →
    1 ≤ L.foldl (fun index c => index * 26 + ((c.toNat : Int) - 64)) a := by
  intro L
  induction L with
  | nil => intro a ha _; simpa using ha
  | cons c cs ih =>
    intro a ha hall
    simp only [List.foldl_cons]
    apply ih
    · have hb := (upperAZ_toNat_bounds c (hall c (by simp))).1
      have hb' : (65 : Int) ≤ (c.toNat : Int) := by exact_mod_cast hb
      omega
    · intro x hx; exact hall x (by simp [hx])

theorem colLetterToIndex_nonneg (L : List Char) (hL : L ≠ [])
    (hLu : ∀ c ∈ L, isUpperAZ c = true) : 0 ≤ colLetterToIndex (String.mk L) := by
  obtain ⟨c, cs, rfl⟩ : ∃ c cs, L = c :: cs := by
    cases L with
    | nil => exact absurd rfl hL
    | cons x xs => exact ⟨x, xs, rfl⟩
  have hc := (upperAZ_toNat_bounds c (hLu c (by simp))).1
  have hc' : (65 : Int) ≤ (c.toNat : Int) := by exact_mod_cast hc
  have hstep : 1 ≤ (c :: cs).foldl
      (fun index c => index * 26 + ((c.toNat : Int) - 64)) 0 := by
    simp only [List.foldl_cons]
    apply letterFoldl_ge_one cs
    · omega
    · intro x hx; exact hLu x (by simp [hx])
  show 0 ≤ (String.mk (c :: cs)).toList.foldl
      (fun index c => index * 26 + ((c.toNat : Int) - 64)) 0 - 1
  have hlist : (String.mk (c :: cs)).toList = c :: cs := rfl
  rw [hlist]
  omega

theorem a1_some_elim (s : String) (a : CellAddress) (h : a1ToCellAddress s = some a) :
    matchesA1 s ∧ 0 ≤ a.col ∧ -1 ≤ a.row := by
  rcases hsp1 : splitLeadDollar s.toList with ⟨b1, l1⟩
  have hs1 : s.toList = (if b1 then ['$'] else []) ++ l1 := by
    have hx := splitLeadDollar_spec s.toList
    rw [hsp1] at hx
    exact hx
  rcases hsp2 : splitLeadDollar (l1.dropWhile isUpperAZ) with ⟨b2, l3⟩
  have hs2 : l1.dropWhile isUpperAZ = (if b2 then ['$'] else []) ++ l3 := by
    have hx := splitLeadDollar_spec (l1.dropWhile isUpperAZ)
    rw [hsp2] at hx
    exact hx
  simp only [a1ToCellAddress, hsp1, hsp2] at h
  by_cases h1 : (l1.takeWhile isUpperAZ).isEmpty
  · rw [if_pos h1] at h; exact absurd h (by simp)
  rw [if_neg h1] at h
  by_cases h2 : (l3.takeWhile isDigit09).isEmpty
  · rw [if_pos h2] at h; exact absurd h (by simp)
  rw [if_neg h2] at h
  by_cases h3 : ¬ (l3.dropWhile isDigit09).isEmpty
  · rw [if_pos h3] at h; exact absurd h (by simp)
  rw [if_neg h3] at h
  have h4 : l3.dropWhile isDigit09 = [] := by
    rw [← List.isEmpty_iff]
    exact not_not.mp h3
  have hLne : l1.takeWhile isUpperAZ ≠ [] := by
    intro hx; exact h1 (by rw [hx]; rfl)
  have hl3 : l3 = l3.takeWhile isDigit09 := by
    have hx := List.takeWhile_append_dropWhile (p := isDigit09) (l := l3)
    rw [h4, List.append_nil] at hx
    exact hx.symm
  have hDne : l3 ≠ [] := by
    intro hx
    exact h2 (by rw [hx]; rfl)
  have hLu : ∀ c ∈ l1.takeWhile isUpperAZ, isUpperAZ c = true :=
    fun c hc => List.mem_takeWhile_imp hc
  have hDd : ∀ c ∈ l3, isDigit09 c = true := by
    intro c hc
    rw [hl3] at hc
    exact List.mem_takeWhile_imp hc
  have hl1 : l1 = l1.takeWhile isUpperAZ ++ ((if b2 then ['$'] else []) ++ l3) := by
    rw [← hs2, List.takeWhile_append_dropWhile]
  obtain rfl : _ = a := Option.some.inj h
  refine ⟨?_, ?_, ?_⟩
  · refine ⟨if b1 then ['$'] else [], l1.takeWhile isUpperAZ,
      if b2 then ['$'] else [], l3, ?_, ?_, hLne, hLu, ?_, hDne, hDd⟩
    · conv_lhs => rw [hs1, hl1]
      simp [List.append_assoc]
    · cases b1 <;> simp
    · cases b2 <;> simp
  · exact colLetterToIndex_nonneg _ hLne hLu
  · show -1 ≤ (digitsVal (l3.takeWhile isDigit09) : Int) - 1
    have hz : 0 ≤ (digitsVal (l3.takeWhile isDigit09) : Int) := Int.ofNat_nonneg _
    omega

/-- C8: the claim says a1ToCellAddress succeeds exactly on strings
matching [$]?[A-Z]+[$]?[0-9]+ and that the result has col at least 0
and row at least 0; the row bound fails (see the counterexample
"A0").  Amended: the parse succeeds exactly on the regex language,
and on success col is at least 0 and row at least -1. -/
theorem c8_amended_parse_characterization :
    ∀ (s : String),
      ((a1ToCellAddress s).isSome = true ↔ matchesA1 s) ∧
      ∀ a, a1ToCellAddress s = some a → 0 ≤ a.col ∧ -1 ≤ a.row := by
  intro s
  constructor
  · constructor
    · intro h
      obtain ⟨a, ha⟩ := Option.isSome_iff_exists.mp h
      exact (a1_some_elim s a ha).1
    · rintro ⟨d1, L, d2, D, hs, hd1, hL, hLu, hd2, hD, hDd⟩
      have key : ∀ (b1 b2 : Bool),
          s.toList = (if b1 then ['$'] else []) ++ L ++ (if b2 then ['$'] else []) ++ D →
          (a1ToCellAddress s).isSome = true := by
        intro b1 b2 hsb
        rw [a1_parse_of_decomp s b1 L b2 D hsb hL hLu hD hDd]
        rfl
      rcases hd1 with rfl | rfl <;> rcases hd2 with rfl | rfl
      · exact key false false (by simpa using hs)
      · exact key false true (by simpa using hs)
      · exact key true false (by simpa using hs)
      · exact key true true (by simpa using hs)
  · intro a ha
    exact (a1_some_elim s a ha).2

/-- C8 witness: the characterization applied to "$AB$10", whose parse
is column 27 ("AB") and row 9 ("10"), both in bounds. -/
theorem c8_amended_parse_characterization_witness :
    matchesA1 "$AB$10" ∧ (0 : Int) ≤ 27 ∧ (-1 : Int) ≤ 9 := by
  have h := c8_amended_parse_characterization "$AB$10"
  have hsome : a1ToCellAddress "$AB$10" =
      some { row := 9, col := 27, absoluteRow := true, absoluteCol := true } := by decide
  refine ⟨h.1.mp (by rw [hsome]; rfl), ?_, ?_⟩
  · exact (h.2 _ hsome).1
  · exact (h.2 _ hsome).2

theorem colLettersAuxF_fuel : ∀ (temp f1 f2 : Nat), temp < f1 → temp < f2 →
    colLettersAuxF f1 temp = colLettersAuxF f2 temp := by
  intro temp
  induction temp using Nat.strong_induction_on with
  | _ temp ih =>
    intro f1 f2 h1 h2
    obtain ⟨k1, rfl⟩ : ∃ k, f1 = k + 1 := ⟨f1 - 1, by omega⟩
    obtain ⟨k2, rfl⟩ : ∃ k, f2 = k + 1 := ⟨f2 - 1, by omega⟩
    simp only [colLettersAuxF]
    by_cases h26 : temp < 26
    · rw [if_pos h26, if_pos h26]
    · rw [if_neg h26, if_neg h26]
      have hd : temp / 26 ≤ temp := Nat.div_le_self temp 26
      rw [ih (temp / 26 - 1) (by omega) k1 k2 (by omega) (by omega)]

theorem natToDigitsF_fuel : ∀ (n f1 f2 : Nat), n < f1 → n < f2 →
    natToDigitsF f1 n = natToDigitsF f2 n := by
  intro n
  induction n using Nat.strong_induction_on with
  | _ n ih =>
    intro f1 f2 h1 h2
    obtain ⟨k1, rfl⟩ : ∃ k, f1 = k + 1 := ⟨f1 - 1, by omega⟩
    obtain ⟨k2, rfl⟩ : ∃ k, f2 = k + 1 := ⟨f2 - 1, by omega⟩
    simp only [natToDigitsF]
    by_cases h10 : n < 10
    · rw [if_pos h10, if_pos h10]
    · rw [if_neg h10, if_neg h10]
      have hd : n / 10 ≤ n := Nat.div_le_self n 10
      rw [ih (n / 10) (by omega) k1 k2 (by omega) (by omega)]

theorem colLettersAux_foldl :
    ∀ (L : List Char), L ≠ [] → (∀ c ∈ L, isUpperAZ c = true) →
      colLettersAux
        (L.foldl (fun index c => index * 26 + ((c.toNat : Int) - 64)) 0 - 1).toNat = L := by
  intro L
  induction L using List.reverseRecOn with
  | nil => intro h _; exact absurd rfl h
  | append_singleton L c ihL =>
    intro _ hall
    have hc := upperAZ_toNat_bounds c (hall c (by simp))
    have hfold : (L ++ [c]).foldl (fun index c => index * 26 + ((c.toNat : Int) - 64)) 0 =
        L.foldl (fun index c => index * 26 + ((c.toNat : Int) - 64)) 0 * 26 +
          ((c.toNat : Int) - 64) := by
      rw [List.foldl_append]
      rfl
    rcases List.eq_nil_or_concat' L with rfl | ⟨L', c', rfl⟩
    · -- single letter: value is c.toNat - 64, index c.toNat - 65 < 26
      rw [hfold]
      simp only [List.foldl_nil]
      have hn : ((0 : Int) * 26 + ((c.toNat : Int) - 64) - 1).toNat = c.toNat - 65 := by
        omega
      rw [hn]
      have hlt : c.toNat - 65 < 26 := by omega
      show colLettersAuxF (c.toNat - 65 + 1) (c.toNat - 65) = [c]
      rw [colLettersAuxF, if_pos hlt]
      have hmod : (c.toNat - 65) % 26 + 65 = c.toNat := by omega
      rw [hmod, Char.ofNat_toNat]
    · -- at least two letters: else branch, peel the last one
      set Lh := L' ++ [c'] with hLh
      have hLhne : Lh ≠ [] := by simp [hLh]
      have hallh : ∀ x ∈ Lh, isUpperAZ x = true := fun x hx => hall x (by simp [hx])
      have hv1 : 1 ≤ Lh.foldl (fun index c => index * 26 + ((c.toNat : Int) - 64)) 0 := by
        obtain ⟨ch, cs, hcons⟩ : ∃ ch cs, Lh = ch :: cs := by
          cases hLx : Lh with
          | nil => exact absurd hLx hLhne
          | cons x xs => exact ⟨x, xs, rfl⟩
        rw [hcons]
        simp only [List.foldl_cons]
        have hch := upperAZ_toNat_bounds ch (hallh ch (by rw [hcons]; simp))
        apply letterFoldl_ge_one
        · omega
        · intro x hx; exact hallh x (by rw [hcons]; simp [hx])
      set v := Lh.foldl (fun index c => index * 26 + ((c.toNat : Int) - 64)) 0 with hv
      set m := v.toNat with hm
      have hm1 : 1 ≤ m := by omega
      have hveq : v = (m : Int) := by omega
      rw [hfold]
      have hn : (v * 26 + ((c.toNat : Int) - 64) - 1).toNat = m * 26 + (c.toNat - 65) := by
        omega
      rw [hn]
      set n := m * 26 + (c.toNat - 65) with hne
      have hge : ¬ n < 26 := by omega
      show colLettersAuxF (n + 1) n = Lh ++ [c]
      rw [colLettersAuxF, if_neg hge]
      have hdiv : n / 26 - 1 = m - 1 := by omega
      have hmod : n % 26 + 65 = c.toNat := by omega
      rw [hdiv, hmod, Char.ofNat_toNat]
      have hfuel : colLettersAuxF n (m - 1) = colLettersAux (m - 1) :=
        colLettersAuxF_fuel (m - 1) n (m - 1 + 1) (by omega) (by omega)
      rw [hfuel]
      have hmt : m - 1 = (v - 1).toNat := by omega
      rw [hmt, ihL hLhne hallh]

theorem noLeadingZero_cons_cons (a b : Char) (rest : List Char) :
    noLeadingZero (a :: b :: rest) = (a != '0') := rfl

theorem noLeadingZero_cons_of_ne (a : Char) (tl : List Char) (h : a ≠ '0') :
    noLeadingZero (a :: tl) = true := by
  cases tl with
  | nil => rfl
  | cons b rest =>
    rw [noLeadingZero_cons_cons]
    exact bne_iff_ne.mpr h

theorem digitsFoldl_ge_one : ∀ (D : List Char) (a : Nat), 1 ≤ a →
    1 ≤ D.foldl (fun a c => a * 10 + (c.toNat - 48)) a := by
  intro D
  induction D with
  | nil => intro a ha; simpa using ha
  | cons c cs ih =>
    intro a ha
    simp only [List.foldl_cons]
    apply ih
    omega

theorem natToDigits_digitsVal :
    ∀ (D : List Char), (∀ c ∈ D, isDigit09 c = true) → noLeadingZero D = true →
      natToDigits (digitsVal D) = D := by
  intro D
  induction D using List.reverseRecOn with
  | nil => intro _ hz; exact absurd hz (by decide)
  | append_singleton D c ihD =>
    intro hall hz
    have hc := digit09_toNat_bounds c (hall c (by simp))
    have hfold : digitsVal (D ++ [c]) = digitsVal D * 10 + (c.toNat - 48) := by
      simp only [digitsVal, List.foldl_append]
      rfl
    cases hD : D with
    | nil =>
      subst hD
      rw [hfold]
      simp only [digitsVal, List.foldl_nil]
      have hlt : 0 * 10 + (c.toNat - 48) < 10 := by omega
      show natToDigitsF (0 * 10 + (c.toNat - 48) + 1) (0 * 10 + (c.toNat - 48)) = [c]
      rw [natToDigitsF, if_pos hlt]
      have hn : 0 * 10 + (c.toNat - 48) + 48 = c.toNat := by omega
      rw [hn, Char.ofNat_toNat]
    | cons hd tl =>
      have hDne : D ≠ [] := by rw [hD]; simp
      have hhd0 : hd ≠ '0' := by
        intro hx
        rw [hD, hx] at hz
        have hzz : noLeadingZero ('0' :: tl ++ [c]) = ('0' != '0') := by
          cases tl <;> rfl
        rw [hzz] at hz
        exact absurd hz (by decide)
      have hzD : noLeadingZero D = true := by
        rw [hD]; exact noLeadingZero_cons_of_ne hd tl hhd0
      have hhd : 48 ≤ hd.toNat ∧ hd.toNat ≤ 57 :=
        digit09_toNat_bounds hd (hall hd (by rw [hD]; simp))
      have hhdne : hd.toNat ≠ 48 := by
        intro hx
        apply hhd0
        have : hd = Char.ofNat hd.toNat := (Char.ofNat_toNat hd).symm
        rw [hx] at this
        exact this
      have hv1 : 1 ≤ digitsVal D := by
        rw [hD]
        simp only [digitsVal, List.foldl_cons]
        apply digitsFoldl_ge_one
        omega
      have hallD : ∀ x ∈ D, isDigit09 x = true := fun x hx => hall x (by simp [hx])
      rw [← hD, hfold]
      set v := digitsVal D with hv
      set n := v * 10 + (c.toNat - 48) with hn
      have hge : ¬ n < 10 := by omega
      show natToDigitsF (n + 1) n = D ++ [c]
      rw [natToDigitsF, if_neg hge]
      have hdiv : n / 10 = v := by omega
      have hmod : n % 10 + 48 = c.toNat := by omega
      rw [hdiv, hmod, Char.ofNat_toNat]
      have hfuel : natToDigitsF n v = natToDigits v :=
        natToDigitsF_fuel v n (v + 1) (by omega) (by omega)
      rw [hfuel, ihD hallD hzD]

theorem letterVal_ge_one (L : List Char) (hL : L ≠ [])
    (hLu : ∀ c ∈ L, isUpperAZ c = true) :
    1 ≤ L.foldl (fun index c => index * 26 + ((c.toNat : Int) - 64)) 0 := by
  obtain ⟨c, cs, rfl⟩ : ∃ c cs, L = c :: cs := by
    cases L with
    | nil => exact absurd rfl hL
    | cons x xs => exact ⟨x, xs, rfl⟩
  have hc := (upperAZ_toNat_bounds c (hLu c (by simp))).1
  have hc' : (65 : Int) ≤ (c.toNat : Int) := by exact_mod_cast hc
  simp only [List.foldl_cons]
  apply letterFoldl_ge_one
  · omega
  · intro x hx; exact hLu x (by simp [hx])

theorem colIndex_roundtrip (L : List Char) (hL : L ≠ [])
    (hLu : ∀ c ∈ L, isUpperAZ c = true) :
    colIndexToLetter (colLetterToIndex (String.mk L)) = String.mk L := by
  have hv1 := letterVal_ge_one L hL hLu
  have hcl : colLetterToIndex (String.mk L) =
      L.foldl (fun index c => index * 26 + ((c.toNat : Int) - 64)) 0 - 1 := rfl
  rw [hcl]
  simp only [colIndexToLetter]
  rw [if_neg (by omega)]
  rw [colLettersAux_foldl L hL hLu]

theorem intToString_digitsVal (D : List Char)
    (hDd : ∀ c ∈ D, isDigit09 c = true) (hnz : noLeadingZero D = true) :
    intToString ((digitsVal D : Int) - 1 + 1) = String.mk D := by
  have h1 : (digitsVal D : Int) - 1 + 1 = (digitsVal D : Int) := by omega
  rw [h1]
  simp only [intToString]
  rw [if_neg (by omega)]
  have h2 : ((digitsVal D : Int)).toNat = digitsVal D := Int.toNat_natCast _
  rw [h2, natToDigits_digitsVal D hDd hnz]

theorem stringMk_append (a b : List Char) :
    String.mk a ++ String.mk b = String.mk (a ++ b) := rfl

/-- C2: the claim says the round trip addressToText (textToAddress s)
returns s for every well-formed reference string; it fails on a
leading zero in the digit part (see the counterexample "A01").
Amended: the round trip is the identity on every well-formed
reference string whose digit part has no leading zero. -/
theorem c2_roundtrip_no_leading_zero :
    ∀ (s : String) (d1 L d2 D : List Char),
      s.toList = d1 ++ L ++ d2 ++ D →
      (d1 = [] ∨ d1 = ['$']) → L ≠ [] → (∀ c ∈ L, isUpperAZ c = true) →
      (d2 = [] ∨ d2 = ['$']) → D ≠ [] → (∀ c ∈ D, isDigit09 c = true) →
      noLeadingZero D = true →
      Option.map cellAddressToA1 (a1ToCellAddress s) = some s := by
  intro s d1 L d2 D hs hd1 hL hLu hd2 hD hDd hnz
  have hse : s = String.mk (d1 ++ L ++ d2 ++ D) := by
    have : String.mk s.toList = s := rfl
    rw [← this, hs]
  have key : ∀ (b1 b2 : Bool),
      s.toList = (if b1 then ['$'] else []) ++ L ++ (if b2 then ['$'] else []) ++ D →
      Option.map cellAddressToA1 (a1ToCellAddress s) =
        some ((if b1 then String.mk ('$' :: L) else String.mk L) ++
          (if b2 then String.mk ('$' :: D) else String.mk D)) := by
    intro b1 b2 hsb
    rw [a1_parse_of_decomp s b1 L b2 D hsb hL hLu hD hDd]
    simp only [Option.map_some']
    congr 1
    simp only [cellAddressToA1]
    cases b1 <;> cases b2 <;>
      simp only [if_true, if_false, Bool.false_eq_true, colIndex_roundtrip L hL hLu,
        intToString_digitsVal D hDd hnz, stringMk_append] <;> rfl
  rcases hd1 with rfl | rfl <;> rcases hd2 with rfl | rfl
  · rw [key false false (by simpa using hs), hse]
    simp [stringMk_append]
  · rw [key false true (by simpa using hs), hse]
    simp [stringMk_append]
  · rw [key true false (by simpa using hs), hse]
    simp [stringMk_append]
  · rw [key true true (by simpa using hs), hse]
    simp [stringMk_append]

/-- C2 witness: the round trip applied to the fully decorated
reference "$AB$10". -/
theorem c2_roundtrip_no_leading_zero_witness :
    Option.map cellAddressToA1 (a1ToCellAddress "$AB$10") = some "$AB$10" :=
  c2_roundtrip_no_leading_zero "$AB$10" ['$'] ['A', 'B'] ['$'] ['1', '0']
    (by decide) (by decide) (by decide) (by decide) (by decide) (by decide)
    (by decide) (by decide)

end NgSpreadsheet
